import Mathlib

/-!
Verification of the JamSync relay server (`src/server/index.js`).

The repository ships three near-identical copies ("variants") of the
server; the claims cite handlers from each, so the embedding keeps one
namespace per variant (`V1`, `V2`, `V3`), each a faithful translation of
that variant's handler code.  JavaScript `Map`s become association lists
with JS `Map` semantics (`set` replaces in place, `delete` filters,
`size` is the entry count); `ws.send` becomes an output list of
(connection, message) pairs; `ws.readyState === 1` becomes an
environment predicate `Env : ConnId → Bool` consulted at send time;
`Math.random()` draws become an explicit list of naturals.
-/

namespace JamSync

/-- Strings are modelled as lists of characters (JS `.slice` then being
`List.take`). -/
abbrev Str := List Char

/-- A websocket connection handle, identified by a number. -/
abbrev ConnId := Nat

/-- `env w = true` models `w.readyState === 1` (socket open). -/
abbrev Env := ConnId → Bool

/-- JS `a || b` for strings: the default is used when the field is
absent or empty (both falsy). -/
def orElse (s d : Str) : Str := if s = [] then d else s

/-- JS `String.prototype.toUpperCase`. -/
def jsUpper (s : Str) : Str := s.map Char.toUpper

/-- JS `String.prototype.trim`. -/
def jsTrim (s : Str) : Str :=
  ((s.dropWhile Char.isWhitespace).reverse.dropWhile Char.isWhitespace).reverse

section AList

variable {K V : Type} [DecidableEq K]

/-- JS `Map.prototype.get`. -/
def mget (m : List (K × V)) (k : K) : Option V :=
  match m with
  | [] => none
  | (k', v) :: rest => if k' = k then some v else mget rest k

/-- JS `Map.prototype.set`: replaces the value in place if the key is
present, otherwise appends (insertion order). -/
def mset (m : List (K × V)) (k : K) (v : V) : List (K × V) :=
  match m with
  | [] => [(k, v)]
  | (k', v') :: rest => if k' = k then (k, v) :: rest else (k', v') :: mset rest k v

/-- JS `Map.prototype.delete` (keys are unique on every reachable
state, so removing every entry with the key is the same operation). -/
def mdel (m : List (K × V)) (k : K) : List (K × V) :=
  match m with
  | [] => []
  | (k', v) :: rest => if k' = k then mdel rest k else (k', v) :: mdel rest k

theorem mget_mdel_self (m : List (K × V)) (k : K) : mget (mdel m k) k = none := by
  induction m with
  | nil => rfl
  | cons e rest ih =>
      by_cases h : e.1 = k
      · simpa [mdel, h] using ih
      · simpa [mdel, h, mget] using ih

theorem mget_mdel_ne (m : List (K × V)) (k k' : K) (h : k' ≠ k) :
    mget (mdel m k) k' = mget m k' := by
  induction m with
  | nil => rfl
  | cons e rest ih =>
      by_cases he : e.1 = k
      · subst he
        simpa [mdel, mget, Ne.symm h] using ih
      · by_cases he' : e.1 = k'
        · simp [mdel, he, mget, he', h]
        · simpa [mdel, he, mget, he'] using ih

theorem mget_mset_self (m : List (K × V)) (k : K) (v : V) :
    mget (mset m k v) k = some v := by
  induction m with
  | nil => simp [mset, mget]
  | cons e rest ih =>
      by_cases h : e.1 = k
      · simp [mset, h, mget]
      · simp [mset, h, mget, ih]

theorem mget_mset_ne (m : List (K × V)) (k k' : K) (v : V) (h : k ≠ k') :
    mget (mset m k v) k' = mget m k' := by
  induction m with
  | nil => simp [mset, mget, h]
  | cons e rest ih =>
      by_cases he : e.1 = k
      · subst he
        simp [mset, mget, h]
      · simp [mset, he, mget, ih]

theorem mdel_mdel (m : List (K × V)) (k : K) :
    mdel (mdel m k) k = mdel m k := by
  induction m with
  | nil => rfl
  | cons e rest ih =>
      by_cases h : e.1 = k
      · simpa [mdel, h] using ih
      · simpa [mdel, h] using ih

theorem mdel_eq_self_of_not_mem_keys (m : List (K × V)) (k : K)
    (h : k ∉ m.map Prod.fst) : mdel m k = m := by
  induction m with
  | nil => rfl
  | cons e rest ih =>
      simp at h
      have he : e.1 ≠ k := fun hk => h.1 hk.symm
      simp [mdel, he, ih (by simpa using h.2)]

theorem length_mset_of_mget_none (m : List (K × V)) (k : K) (v : V)
    (h : mget m k = none) : (mset m k v).length = m.length + 1 := by
  induction m with
  | nil => simp [mset]
  | cons e rest ih =>
      by_cases he : e.1 = k
      · simp [mget, he] at h
      · simp [mget, he] at h
        simp [mset, he, ih h]

theorem length_mset_le (m : List (K × V)) (k : K) (v : V) :
    (mset m k v).length ≤ m.length + 1 := by
  induction m with
  | nil => simp [mset]
  | cons e rest ih =>
      by_cases he : e.1 = k
      · simp [mset, he]
      · simp [mset, he]
        omega

theorem length_mdel_of_mget_some (m : List (K × V)) (k : K) (v : V)
    (hnodup : (m.map Prod.fst).Nodup) (h : mget m k = some v) :
    (mdel m k).length + 1 = m.length := by
  induction m with
  | nil => simp [mget] at h
  | cons e rest ih =>
      rw [List.map_cons] at hnodup
      have hcons := List.nodup_cons.mp hnodup
      by_cases he : e.1 = k
      · have hout : k ∉ rest.map Prod.fst := he ▸ hcons.1
        simp [mdel, he, mdel_eq_self_of_not_mem_keys rest k hout]
      · simp [mget, he] at h
        simpa [mdel, he] using ih hcons.2 h

theorem mget_eq_none_of_not_mem_keys (m : List (K × V)) (k : K)
    (h : k ∉ m.map Prod.fst) : mget m k = none := by
  induction m with
  | nil => rfl
  | cons e rest ih =>
      simp at h
      have : e.1 ≠ k := fun hk => h.1 hk.symm
      simp [mget, this, ih (by simpa using h.2)]

theorem mget_mem (m : List (K × V)) (k : K) (v : V) (h : mget m k = some v) :
    (k, v) ∈ m := by
  induction m with
  | nil => simp [mget] at h
  | cons e rest ih =>
      by_cases he : e.1 = k
      · simp [mget, he] at h
        subst h
        subst he
        exact List.mem_cons_self e rest
      · simp [mget, he] at h
        exact List.mem_cons_of_mem _ (ih h)

theorem length_mdel_le (m : List (K × V)) (k : K) :
    (mdel m k).length ≤ m.length := by
  induction m with
  | nil => simp [mdel]
  | cons e rest ih =>
      by_cases he : e.1 = k
      · simp [mdel, he]; omega
      · simp [mdel, he]; omega

theorem keys_mdel_sublist (m : List (K × V)) (k : K) :
    ((mdel m k).map Prod.fst).Sublist (m.map Prod.fst) := by
  induction m with
  | nil => simp [mdel]
  | cons e rest ih =>
      by_cases he : e.1 = k
      · subst he
        simpa [mdel] using ih.cons e.1
      · simpa [mdel, he] using ih.cons₂ e.1

theorem nodup_keys_mdel (m : List (K × V)) (k : K)
    (h : (m.map Prod.fst).Nodup) : ((mdel m k).map Prod.fst).Nodup :=
  (keys_mdel_sublist m k).nodup h

theorem keys_mset_subset (m : List (K × V)) (k : K) (v : V) :
    ∀ x ∈ (mset m k v).map Prod.fst, x ∈ m.map Prod.fst ∨ x = k := by
  induction m with
  | nil => simp [mset]
  | cons e rest ih =>
      intro x hx
      by_cases he : e.1 = k
      · subst he
        simp only [mset, if_pos, List.map_cons, List.mem_cons] at hx
        rcases hx with hx | hx
        · right; exact hx
        · left; exact List.mem_cons_of_mem _ hx
      · simp only [mset, if_neg he, List.map_cons, List.mem_cons] at hx
        rcases hx with hx | hx
        · left; simp [hx]
        · rcases ih x hx with h' | h'
          · left; exact List.mem_cons_of_mem _ h'
          · right; exact h'

theorem nodup_keys_mset (m : List (K × V)) (k : K) (v : V)
    (h : (m.map Prod.fst).Nodup) : ((mset m k v).map Prod.fst).Nodup := by
  induction m with
  | nil => simp [mset]
  | cons e rest ih =>
      rw [List.map_cons] at h
      have hcons := List.nodup_cons.mp h
      by_cases he : e.1 = k
      · subst he
        simpa [mset] using h
      · have : e.1 ∉ (mset rest k v).map Prod.fst := by
          intro hmem
          rcases keys_mset_subset rest k v e.1 hmem with hmem' | hk
          · exact hcons.1 hmem'
          · exact he hk
        simpa [mset, he, List.nodup_cons, this] using ih hcons.2

theorem count_keys_mset (m : List (K × V)) (k : K) (v : V)
    (h : (m.map Prod.fst).Nodup) : ((mset m k v).map Prod.fst).count k = 1 := by
  induction m with
  | nil => simp [mset]
  | cons e rest ih =>
      rw [List.map_cons] at h
      have hcons := List.nodup_cons.mp h
      by_cases he : e.1 = k
      · subst he
        have : (rest.map Prod.fst).count e.1 = 0 := List.count_eq_zero.mpr hcons.1
        simp [mset, List.count_cons, this]
      · have := ih hcons.2
        simp [mset, he, List.count_cons, this, Ne.symm he]

end AList

/-- Member role, as stored in `clientRooms`. -/
inductive Role
  | host
  | listener
deriving DecidableEq, Repr

/-- An entry `{ ws, userId, name }` as stored for the host and for each
listener of a room. -/
structure Member where
  ws : ConnId
  userId : Str
  name : Str
deriving DecidableEq, Repr

/-- A `clientRooms` entry `{ roomCode, userId, name, role }`. -/
structure ClientInfo where
  roomCode : Str
  userId : Str
  name : Str
  role : Role
deriving DecidableEq, Repr

/-- `generateRoomCode` / `generateCode`: six draws of
`Math.floor(Math.random() * chars.length)` over the 32-character
alphabet; the random draws are passed in explicitly. -/
def roomChars : Str := "ABCDEFGHJKLMNPQRSTUVWXYZ23456789".data

def generateRoomCode (draws : List Nat) : Str :=
  (List.range 6).map (fun i => roomChars.getD (draws.getD i 0 % 32) 'A')

/-- The 6-hour staleness threshold in milliseconds. -/
def staleMs : Nat := 6 * 60 * 60 * 1000

namespace V1

/-- `room.videoState` as set by the `PLAY_URL`/`SYNC_STATE` handlers. -/
structure VideoState where
  videoId : Str
  title : Str
  isPlaying : Bool
  currentTime : Nat
  timestamp : Nat
deriving DecidableEq, Repr

/-- A `rooms` entry: `{ host, listeners, videoState, createdAt }`. -/
structure Room where
  host : Option Member
  listeners : List (Str × Member)
  videoState : Option VideoState
  createdAt : Nat
deriving DecidableEq, Repr

/-- The two global maps `rooms` and `clientRooms`. -/
structure St where
  rooms : List (Str × Room)
  clientRooms : List (ConnId × ClientInfo)
deriving DecidableEq, Repr

/-- The object built by `getRoomInfo`. -/
structure RoomInfo where
  roomCode : Str
  hostName : Str
  listeners : List (Str × Str)
  listenerCount : Nat
  videoState : Option VideoState
  createdAt : Nat
deriving DecidableEq, Repr

/-- Outbound messages sent by variant 1 of the server. -/
inductive Out
  | roomCreated (roomCode : Str) (userId : Str) (info : Option RoomInfo)
  | error (message : Str)
  | roomJoined (roomCode : Str) (userId : Str) (info : Option RoomInfo)
  | userJoined (userId name : Str) (listenerCount : Nat) (info : Option RoomInfo)
  | roomClosed (message : Str)
  | userLeft (userId name : Str) (listenerCount : Nat) (info : Option RoomInfo)
  | chat (userId name message : Str) (timestamp : Nat)
  | reaction (userId name emoji : Str)
  | control (action fromName fromUserId : Str)
  | search (query fromName : Str)
  | playUrl (v : VideoState)
deriving DecidableEq, Repr

def getRoomInfo (rooms : List (Str × Room)) (code : Str) : Option RoomInfo :=
  match mget rooms code with
  | none => none
  | some room =>
      some {
        roomCode := code
        hostName := orElse (match room.host with | some h => h.name | none => []) "Unknown".data
        listeners := room.listeners.map (fun e => (e.2.userId, e.2.name))
        listenerCount := room.listeners.length
        videoState := room.videoState
        createdAt := room.createdAt }

/-- `sendTo(ws, message)`: unicast guarded by `readyState === 1`. -/
def sendTo (env : Env) (w : ConnId) (m : Out) : List (ConnId × Out) :=
  if env w then [(w, m)] else []

/-- `broadcast(roomCode, message, excludeWs)`. -/
def broadcast (env : Env) (rooms : List (Str × Room)) (code : Str) (m : Out)
    (exclude : Option ConnId) : List (ConnId × Out) :=
  match mget rooms code with
  | none => []
  | some room =>
      (match room.host with
       | some h => if some h.ws ≠ exclude ∧ env h.ws then [(h.ws, m)] else []
       | none => []) ++
      room.listeners.filterMap (fun e =>
        if some e.2.ws ≠ exclude ∧ env e.2.ws then some (e.2.ws, m) else none)

/-- `leaveRoom(ws)`. -/
def leaveRoom (env : Env) (st : St) (w : ConnId) : St × List (ConnId × Out) :=
  match mget st.clientRooms w with
  | none => (st, [])
  | some info =>
      match mget st.rooms info.roomCode with
      | none => (st, [])
      | some room =>
          if info.role = Role.host then
            let outs := broadcast env st.rooms info.roomCode
              (Out.roomClosed "The host has ended the session.".data) (some w)
            (⟨mdel st.rooms info.roomCode, mdel st.clientRooms w⟩, outs)
          else
            let room' := { room with listeners := mdel room.listeners info.userId }
            let rooms' := mset st.rooms info.roomCode room'
            let outs := broadcast env rooms' info.roomCode
              (Out.userLeft info.userId info.name room'.listeners.length
                (getRoomInfo rooms' info.roomCode)) none
            (⟨rooms', mdel st.clientRooms w⟩, outs)

/-- The `ws.on('close')` / `ws.on('error')` / heartbeat-eviction path:
`leaveRoom(ws); clientRooms.delete(ws)`. -/
def disconnectCleanup (env : Env) (st : St) (w : ConnId) : St × List (ConnId × Out) :=
  let p := leaveRoom env st w
  (⟨p.1.rooms, mdel p.1.clientRooms w⟩, p.2)

/-- The `CREATE_ROOM` handler. -/
def handleCreateRoom (env : Env) (st : St) (w : ConnId) (userId : Str)
    (msgName : Str) (draws : List Nat) (now : Nat) : St × List (ConnId × Out) :=
  let p := leaveRoom env st w
  let roomCode := generateRoomCode draws
  let name := (orElse msgName "Host".data).take 20
  let room : Room := ⟨some ⟨w, userId, name⟩, [], none, now⟩
  let rooms' := mset p.1.rooms roomCode room
  let st' : St := ⟨rooms', mset p.1.clientRooms w ⟨roomCode, userId, name, Role.host⟩⟩
  (st', p.2 ++ sendTo env w (Out.roomCreated roomCode userId (getRoomInfo rooms' roomCode)))

/-- The `JOIN_ROOM` handler.  After `leaveRoom`, the captured `room`
object is mutated in place; since it is the same object the `rooms` map
references (when still present), this is modelled by re-fetching the
entry from the post-leave map. -/
def handleJoinRoom (env : Env) (st : St) (w : ConnId) (userId : Str)
    (msgRoomCode msgName : Str) : St × List (ConnId × Out) :=
  let code := jsTrim (jsUpper msgRoomCode)
  let name := (orElse msgName "Listener".data).take 20
  match mget st.rooms code with
  | none => (st, sendTo env w (Out.error "Room not found. Check the code and try again.".data))
  | some room =>
      if 50 ≤ room.listeners.length then
        (st, sendTo env w (Out.error "Room is full (max 50 listeners).".data))
      else
        let p := leaveRoom env st w
        let rooms1 :=
          match mget p.1.rooms code with
          | some r => mset p.1.rooms code
              { r with listeners := mset r.listeners userId ⟨w, userId, name⟩ }
          | none => p.1.rooms
        let st2 : St := ⟨rooms1, mset p.1.clientRooms w ⟨code, userId, name, Role.listener⟩⟩
        let cnt := match mget rooms1 code with | some r => r.listeners.length | none => 0
        (st2,
          p.2 ++ sendTo env w (Out.roomJoined code userId (getRoomInfo rooms1 code))
              ++ broadcast env rooms1 code
                   (Out.userJoined userId name cnt (getRoomInfo rooms1 code)) (some w))

/-- The `CHAT` handler: broadcast with no exclusion. -/
def handleChat (env : Env) (st : St) (w : ConnId) (msgMessage : Str) (now : Nat) :
    St × List (ConnId × Out) :=
  match mget st.clientRooms w with
  | none => (st, [])
  | some info =>
      (st, broadcast env st.rooms info.roomCode
        (Out.chat info.userId info.name (msgMessage.take 500) now) none)

/-- The `REACTION` handler: broadcast excluding the sender. -/
def handleReaction (env : Env) (st : St) (w : ConnId) (msgEmoji : Str) :
    St × List (ConnId × Out) :=
  match mget st.clientRooms w with
  | none => (st, [])
  | some info =>
      (st, broadcast env st.rooms info.roomCode
        (Out.reaction info.userId info.name (msgEmoji.take 4)) (some w))

/-- The `CONTROL` handler: listener-only forward to the host. -/
def handleControl (env : Env) (st : St) (w : ConnId) (msgAction : Str) :
    St × List (ConnId × Out) :=
  match mget st.clientRooms w with
  | none => (st, [])
  | some info =>
      match mget st.rooms info.roomCode with
      | none => (st, [])
      | some room =>
          if info.role = Role.listener then
            match room.host with
            | some h => (st, sendTo env h.ws (Out.control msgAction info.name info.userId))
            | none => (st, [])
          else (st, [])

/-- The `SEARCH` handler: forward to the host from any member. -/
def handleSearch (env : Env) (st : St) (w : ConnId) (msgQuery : Str) :
    St × List (ConnId × Out) :=
  match mget st.clientRooms w with
  | none => (st, [])
  | some info =>
      match mget st.rooms info.roomCode with
      | none => (st, [])
      | some room =>
          match room.host with
          | some h => (st, sendTo env h.ws (Out.search (msgQuery.take 200) info.name))
          | none => (st, [])

/-- The `PLAY_URL` handler (host only): store a fresh `videoState` and
broadcast it, excluding the host. -/
def handlePlayUrl (env : Env) (st : St) (w : ConnId) (msgVideoId msgTitle : Str)
    (now : Nat) : St × List (ConnId × Out) :=
  match mget st.clientRooms w with
  | none => (st, [])
  | some info =>
      if info.role = Role.host then
        match mget st.rooms info.roomCode with
        | none => (st, [])
        | some room =>
            let vs : VideoState :=
              ⟨msgVideoId.take 20, (orElse msgTitle "Unknown".data).take 100, true, 0, now⟩
            let rooms' := mset st.rooms info.roomCode { room with videoState := some vs }
            (⟨rooms', st.clientRooms⟩,
              broadcast env rooms' info.roomCode (Out.playUrl vs) (some w))
      else (st, [])

/-- The stale-room cleanup interval body: delete every room with no
listeners whose age exceeds six hours. -/
def sweepStale (now : Nat) (rooms : List (Str × Room)) : List (Str × Room) :=
  rooms.filter (fun e =>
    if e.2.listeners.length = 0 ∧ staleMs < now - e.2.createdAt then false else true)

/-- `w` is the socket of a member (host or listener) of `room`. -/
def memberWs (room : Room) (w : ConnId) : Bool :=
  (match room.host with | some h => h.ws == w | none => false) ||
    room.listeners.any (fun e => e.2.ws == w)

end V1

namespace V2

/-- `room.trackInfo` as set by the `TRACK_UPDATE` handler. -/
structure TrackInfo where
  title : Str
  artist : Str
  platform : Str
  isPlaying : Bool
deriving DecidableEq, Repr

/-- A variant-2 `rooms` entry: `{ host, listeners, trackInfo, createdAt }`. -/
structure Room where
  host : Option Member
  listeners : List (Str × Member)
  trackInfo : Option TrackInfo
  createdAt : Nat
deriving DecidableEq, Repr

structure St where
  rooms : List (Str × Room)
  clientRooms : List (ConnId × ClientInfo)
deriving DecidableEq, Repr

structure RoomInfo where
  roomCode : Str
  hostName : Str
  listeners : List (Str × Str)
  listenerCount : Nat
  trackInfo : Option TrackInfo
  createdAt : Nat
deriving DecidableEq, Repr

/-- Outbound messages sent by variant 2 of the server (only the ones the
modelled handlers emit). -/
inductive Out
  | error (message : Str)
  | roomJoined (roomCode : Str) (userId : Str) (info : Option RoomInfo)
  | userJoined (userId name : Str) (listenerCount : Nat) (info : Option RoomInfo)
  | initiatePeer (targetUserId targetName : Str)
  | roomClosed (message : Str)
  | userLeft (userId name : Str) (listenerCount : Nat) (info : Option RoomInfo)
  | control (action fromName fromUserId : Str)
  | search (query fromName : Str)
  | signal (fromUserId fromName : Str) (payload : Str)
  | trackUpdate (t : TrackInfo)
deriving DecidableEq, Repr

def getRoomInfo (rooms : List (Str × Room)) (code : Str) : Option RoomInfo :=
  match mget rooms code with
  | none => none
  | some room =>
      some {
        roomCode := code
        hostName := orElse (match room.host with | some h => h.name | none => []) "Unknown".data
        listeners := room.listeners.map (fun e => (e.2.userId, e.2.name))
        listenerCount := room.listeners.length
        trackInfo := room.trackInfo
        createdAt := room.createdAt }

def sendTo (env : Env) (w : ConnId) (m : Out) : List (ConnId × Out) :=
  if env w then [(w, m)] else []

def broadcast (env : Env) (rooms : List (Str × Room)) (code : Str) (m : Out)
    (exclude : Option ConnId) : List (ConnId × Out) :=
  match mget rooms code with
  | none => []
  | some room =>
      (match room.host with
       | some h => if some h.ws ≠ exclude ∧ env h.ws then [(h.ws, m)] else []
       | none => []) ++
      room.listeners.filterMap (fun e =>
        if some e.2.ws ≠ exclude ∧ env e.2.ws then some (e.2.ws, m) else none)

def leaveRoom (env : Env) (st : St) (w : ConnId) : St × List (ConnId × Out) :=
  match mget st.clientRooms w with
  | none => (st, [])
  | some info =>
      match mget st.rooms info.roomCode with
      | none => (st, [])
      | some room =>
          if info.role = Role.host then
            let outs := broadcast env st.rooms info.roomCode
              (Out.roomClosed "The host has ended the session.".data) (some w)
            (⟨mdel st.rooms info.roomCode, mdel st.clientRooms w⟩, outs)
          else
            let room' := { room with listeners := mdel room.listeners info.userId }
            let rooms' := mset st.rooms info.roomCode room'
            let outs := broadcast env rooms' info.roomCode
              (Out.userLeft info.userId info.name room'.listeners.length
                (getRoomInfo rooms' info.roomCode)) none
            (⟨rooms', mdel st.clientRooms w⟩, outs)

/-- The variant-2 `JOIN_ROOM` handler: as in variant 1, plus an
`INITIATE_PEER` sent to the host of the captured room object. -/
def handleJoinRoom (env : Env) (st : St) (w : ConnId) (userId : Str)
    (msgRoomCode msgName : Str) : St × List (ConnId × Out) :=
  let code := jsTrim (jsUpper msgRoomCode)
  let name := (orElse msgName "Listener".data).take 20
  match mget st.rooms code with
  | none => (st, sendTo env w (Out.error "Room not found. Check the code and try again.".data))
  | some room =>
      if 50 ≤ room.listeners.length then
        (st, sendTo env w (Out.error "Room is full (max 50 listeners).".data))
      else
        let p := leaveRoom env st w
        let rooms1 :=
          match mget p.1.rooms code with
          | some r => mset p.1.rooms code
              { r with listeners := mset r.listeners userId ⟨w, userId, name⟩ }
          | none => p.1.rooms
        let st2 : St := ⟨rooms1, mset p.1.clientRooms w ⟨code, userId, name, Role.listener⟩⟩
        let cnt := match mget rooms1 code with | some r => r.listeners.length | none => 0
        (st2,
          p.2 ++ sendTo env w (Out.roomJoined code userId (getRoomInfo rooms1 code))
              ++ broadcast env rooms1 code
                   (Out.userJoined userId name cnt (getRoomInfo rooms1 code)) (some w)
              ++ (match room.host with
                  | some h => sendTo env h.ws (Out.initiatePeer userId name)
                  | none => []))

/-- The variant-2 `CONTROL` handler: forwards to the host with **no**
check of the sender's role. -/
def handleControl (env : Env) (st : St) (w : ConnId) (msgAction : Str) :
    St × List (ConnId × Out) :=
  match mget st.clientRooms w with
  | none => (st, [])
  | some info =>
      match mget st.rooms info.roomCode with
      | none => (st, [])
      | some room =>
          match room.host with
          | some h => (st, sendTo env h.ws (Out.control msgAction info.name info.userId))
          | none => (st, [])

def handleSearch (env : Env) (st : St) (w : ConnId) (msgQuery : Str) :
    St × List (ConnId × Out) :=
  match mget st.clientRooms w with
  | none => (st, [])
  | some info =>
      match mget st.rooms info.roomCode with
      | none => (st, [])
      | some room =>
          match room.host with
          | some h => (st, sendTo env h.ws (Out.search (msgQuery.take 200) info.name))
          | none => (st, [])

/-- `findPeerWs(room, targetUserId)`. -/
def findPeerWs (room : Room) (target : Str) : Option ConnId :=
  match room.host with
  | some h =>
      if h.userId = target then some h.ws
      else (mget room.listeners target).map Member.ws
  | none => (mget room.listeners target).map Member.ws

/-- The variant-2 `SIGNAL` handler: forward the opaque payload to the
resolved peer, or drop silently. -/
def handleSignal (env : Env) (st : St) (w : ConnId) (msgTargetUserId msgSignal : Str) :
    St × List (ConnId × Out) :=
  match mget st.clientRooms w with
  | none => (st, [])
  | some info =>
      match mget st.rooms info.roomCode with
      | none => (st, [])
      | some room =>
          match findPeerWs room msgTargetUserId with
          | some tw => (st, sendTo env tw (Out.signal info.userId info.name msgSignal))
          | none => (st, [])

/-- The variant-2 `TRACK_UPDATE` handler (host only). -/
def handleTrackUpdate (env : Env) (st : St) (w : ConnId)
    (msgTitle msgArtist msgPlatform : Str) (msgIsPlaying : Bool) :
    St × List (ConnId × Out) :=
  match mget st.clientRooms w with
  | none => (st, [])
  | some info =>
      if info.role = Role.host then
        match mget st.rooms info.roomCode with
        | none => (st, [])
        | some room =>
            let t : TrackInfo :=
              ⟨(orElse msgTitle "Unknown".data).take 100, msgArtist.take 100,
               msgPlatform.take 30, msgIsPlaying⟩
            let rooms' := mset st.rooms info.roomCode { room with trackInfo := some t }
            (⟨rooms', st.clientRooms⟩,
              broadcast env rooms' info.roomCode (Out.trackUpdate t) (some w))
      else (st, [])

/-- `w` is the socket of a member (host or listener) of `room`. -/
def memberWs (room : Room) (w : ConnId) : Bool :=
  (match room.host with | some h => h.ws == w | none => false) ||
    room.listeners.any (fun e => e.2.ws == w)

end V2

namespace V3

structure VideoState where
  videoId : Str
  title : Str
  isPlaying : Bool
  currentTime : Nat
  timestamp : Nat
deriving DecidableEq, Repr

/-- A variant-3 `rooms` entry:
`{ code, hostWs, hostUserId, hostName, listeners, videoState, isStreaming }`. -/
structure Room where
  code : Str
  hostWs : ConnId
  hostUserId : Str
  hostName : Str
  listeners : List (Str × Member)
  videoState : Option VideoState
  isStreaming : Bool
deriving DecidableEq, Repr

structure St where
  rooms : List (Str × Room)
  clientRooms : List (ConnId × ClientInfo)
deriving DecidableEq, Repr

structure RoomInfo where
  roomCode : Str
  hostName : Str
  listenerCount : Nat
  listeners : List (Str × Str)
  videoState : Option VideoState
  isStreaming : Bool
deriving DecidableEq, Repr

inductive Out
  | roomCreated (roomCode : Str) (userId : Str) (info : RoomInfo)
  | error (message : Str)
  | roomJoined (roomCode : Str) (userId : Str) (info : RoomInfo)
  | userJoined (userId name : Str) (listenerCount : Nat) (info : RoomInfo)
  | playUrl (videoId title : Str)
deriving DecidableEq, Repr

def getRoomInfo (room : Room) : RoomInfo :=
  { roomCode := room.code
    hostName := room.hostName
    listenerCount := room.listeners.length
    listeners := room.listeners.map (fun e => (e.2.userId, e.2.name))
    videoState := room.videoState
    isStreaming := room.isStreaming }

def sendTo (env : Env) (w : ConnId) (m : Out) : List (ConnId × Out) :=
  if env w then [(w, m)] else []

/-- The variant-3 `broadcast(room, data, excludeWs)`: operates on a room
object directly; the host socket is unconditional apart from exclusion
and the `sendTo` open-state guard. -/
def broadcast (env : Env) (room : Room) (m : Out) (exclude : Option ConnId) :
    List (ConnId × Out) :=
  (if some room.hostWs ≠ exclude then sendTo env room.hostWs m else []) ++
    room.listeners.filterMap (fun e =>
      if some e.2.ws ≠ exclude then
        (if env e.2.ws then some (e.2.ws, m) else none)
      else none)

/-- The variant-3 `CREATE_ROOM` handler: fresh `userId` drawn inside the
handler, **no** implicit leave of a prior room, name capped at 30. -/
def handleCreateRoom (env : Env) (st : St) (w : ConnId) (freshUserId : Str)
    (msgName : Str) (draws : List Nat) : St × List (ConnId × Out) :=
  let code := generateRoomCode draws
  let name := (orElse msgName "Host".data).take 30
  let room : Room := ⟨code, w, freshUserId, name, [], none, false⟩
  let st' : St := ⟨mset st.rooms code room,
                   mset st.clientRooms w ⟨code, freshUserId, name, Role.host⟩⟩
  (st', sendTo env w (Out.roomCreated code freshUserId (getRoomInfo room)))

/-- The variant-3 `JOIN_ROOM` handler: **no** capacity check and **no**
implicit leave of the sender's prior room; a fresh `userId` is drawn for
every join. -/
def handleJoinRoom (env : Env) (st : St) (w : ConnId) (freshUserId : Str)
    (msgRoomCode msgName : Str) : St × List (ConnId × Out) :=
  let code := jsUpper msgRoomCode
  match mget st.rooms code with
  | none => (st, sendTo env w (Out.error "Room not found".data))
  | some room =>
      let name := (orElse msgName "Listener".data).take 30
      let room' := { room with listeners := mset room.listeners freshUserId ⟨w, freshUserId, name⟩ }
      let st' : St := ⟨mset st.rooms code room',
                       mset st.clientRooms w ⟨code, freshUserId, name, Role.listener⟩⟩
      (st',
        sendTo env w (Out.roomJoined code freshUserId (getRoomInfo room')) ++
          broadcast env room'
            (Out.userJoined freshUserId name room'.listeners.length (getRoomInfo room'))
            (some w))

/-- The variant-3 `PLAY_URL` handler: **no** host-role check and **no**
truncation of `videoId` or `title`, stored and relayed raw. -/
def handlePlayUrl (env : Env) (st : St) (w : ConnId) (msgVideoId msgTitle : Str)
    (now : Nat) : St × List (ConnId × Out) :=
  match mget st.clientRooms w with
  | none => (st, [])
  | some info =>
      match mget st.rooms info.roomCode with
      | none => (st, [])
      | some room =>
          let vs : VideoState :=
            ⟨msgVideoId, orElse msgTitle "Now Playing".data, true, 0, now⟩
          let room' := { room with videoState := some vs }
          (⟨mset st.rooms info.roomCode room', st.clientRooms⟩,
            broadcast env room' (Out.playUrl msgVideoId msgTitle) (some w))

end V3

/-! ### Support lemmas about the embedded operations -/

theorem listFilterMap_eq_map {A B : Type} (l : List A) (f : A → Option B) (g : A → B)
    (h : ∀ e ∈ l, f e = some (g e)) : l.filterMap f = l.map g := by
  induction l with
  | nil => rfl
  | cons e rest ih =>
      rw [List.filterMap_cons, h e (List.mem_cons_self e rest), List.map_cons,
        ih (fun x hx => h x (List.mem_cons_of_mem _ hx))]

theorem mget_filter_of_nodup {K V : Type} [DecidableEq K] (p : K × V → Bool)
    (m : List (K × V)) (k : K) (v : V)
    (hnodup : (m.map Prod.fst).Nodup) (h : mget m k = some v) :
    mget (m.filter p) k = if p (k, v) then some v else none := by
  induction m with
  | nil => simp [mget] at h
  | cons e rest ih =>
      rw [List.map_cons] at hnodup
      have hcons := List.nodup_cons.mp hnodup
      by_cases he : e.1 = k
      · subst he
        simp [mget] at h
        subst h
        have hrest : mget (rest.filter p) e.1 = none := by
          apply mget_eq_none_of_not_mem_keys
          intro hmem
          exact hcons.1 ((List.filter_sublist rest).map Prod.fst |>.subset hmem)
        cases hp : p e
        · simpa [List.filter_cons, hp, Prod.mk.eta] using hrest
        · simp [List.filter_cons, hp, mget, Prod.mk.eta]
      · simp [mget, he] at h
        cases hp : p e
        · simpa [List.filter_cons, hp, mget, he, Prod.mk.eta] using ih hcons.2 h
        · simpa [List.filter_cons, hp, mget, he, Prod.mk.eta] using ih hcons.2 h

theorem length_filter_eq_one_of_nodup {A : Type} [DecidableEq A] (l : List A) (x : A)
    (hnodup : l.Nodup) (hx : x ∈ l) : (l.filter (fun y => y = x)).length = 1 := by
  induction l with
  | nil => cases hx
  | cons a rest ih =>
      have hcons := List.nodup_cons.mp hnodup
      rcases List.mem_cons.mp hx with rfl | hx'
      · have hnil : rest.filter (fun y => y = x) = [] := by
          apply List.filter_eq_nil_iff.mpr
          intro b hb
          simp only [decide_eq_true_eq]
          intro hbx
          exact hcons.1 (hbx ▸ hb)
        simp [List.filter_cons, hnil]
      · have ha : ¬(a = x) := fun h => hcons.1 (h ▸ hx')
        simp [List.filter_cons, ha, ih hcons.2 hx']

theorem broadcast_snd_v1 (env : Env) (rooms : List (Str × V1.Room)) (code : Str)
    (m : V1.Out) (ex : Option ConnId) :
    ∀ d ∈ V1.broadcast env rooms code m ex, d.2 = m := by
  intro d hd
  cases hroom : mget rooms code with
  | none => simp only [V1.broadcast, hroom] at hd; simp at hd
  | some room =>
      simp only [V1.broadcast, hroom] at hd
      rcases List.mem_append.mp hd with hh | hl
      · cases hhost : room.host with
        | none => simp only [hhost] at hh; simp at hh
        | some h =>
            simp only [hhost] at hh
            by_cases hc : some h.ws ≠ ex ∧ env h.ws
            · rw [if_pos hc] at hh
              simp at hh
              subst hh
              rfl
            · rw [if_neg hc] at hh; simp at hh
      · rcases List.mem_filterMap.mp hl with ⟨e, _, hfe⟩
        by_cases hc : some e.2.ws ≠ ex ∧ env e.2.ws
        · rw [if_pos hc] at hfe
          cases hfe
          rfl
        · rw [if_neg hc] at hfe; cases hfe

theorem broadcast_mem_v1 (env : Env) (rooms : List (Str × V1.Room)) (code : Str)
    (m : V1.Out) (ex : Option ConnId) (room : V1.Room) (hroom : mget rooms code = some room) :
    ∀ d ∈ V1.broadcast env rooms code m ex, V1.memberWs room d.1 = true := by
  intro d hd
  simp only [V1.broadcast, hroom] at hd
  rcases List.mem_append.mp hd with hh | hl
  · cases hhost : room.host with
    | none => simp only [hhost] at hh; simp at hh
    | some h =>
        simp only [hhost] at hh
        by_cases hc : some h.ws ≠ ex ∧ env h.ws
        · rw [if_pos hc] at hh
          simp at hh
          subst hh
          simp [V1.memberWs, hhost]
        · rw [if_neg hc] at hh; simp at hh
  · rcases List.mem_filterMap.mp hl with ⟨e, he, hfe⟩
    by_cases hc : some e.2.ws ≠ ex ∧ env e.2.ws
    · rw [if_pos hc] at hfe
      cases hfe
      simp only [V1.memberWs, Bool.or_eq_true, List.any_eq_true]
      right
      exact ⟨e, he, by simp⟩
    · rw [if_neg hc] at hfe; cases hfe

theorem broadcast_complete_v1 (env : Env) (rooms : List (Str × V1.Room)) (code : Str)
    (m : V1.Out) (ex : Option ConnId) (room : V1.Room) (x : ConnId)
    (hroom : mget rooms code = some room) (hmem : V1.memberWs room x = true)
    (hopen : env x = true) (hex : some x ≠ ex) :
    (x, m) ∈ V1.broadcast env rooms code m ex := by
  simp only [V1.broadcast, hroom]
  simp only [V1.memberWs, Bool.or_eq_true, List.any_eq_true] at hmem
  rcases hmem with hh | ⟨e, he, hws⟩
  · cases hhost : room.host with
    | none => rw [hhost] at hh; simp at hh
    | some h =>
        rw [hhost] at hh
        simp at hh
        apply List.mem_append_left
        simp only [hhost]
        rw [hh, if_pos ⟨hex, hopen⟩]
        simp
  · apply List.mem_append_right
    apply List.mem_filterMap.mpr
    refine ⟨e, he, ?_⟩
    simp at hws
    rw [hws, if_pos ⟨hex, hopen⟩]

theorem broadcast_excl_v1 (env : Env) (rooms : List (Str × V1.Room)) (code : Str)
    (m : V1.Out) (w : ConnId) :
    ∀ d ∈ V1.broadcast env rooms code m (some w), d.1 ≠ w := by
  intro d hd
  cases hroom : mget rooms code with
  | none => simp only [V1.broadcast, hroom] at hd; simp at hd
  | some room =>
      simp only [V1.broadcast, hroom] at hd
      rcases List.mem_append.mp hd with hh | hl
      · cases hhost : room.host with
        | none => simp only [hhost] at hh; simp at hh
        | some h =>
            simp only [hhost] at hh
            by_cases hc : some h.ws ≠ some w ∧ env h.ws
            · rw [if_pos hc] at hh
              simp at hh
              subst hh
              simpa using hc.1
            · rw [if_neg hc] at hh; simp at hh
      · rcases List.mem_filterMap.mp hl with ⟨e, _, hfe⟩
        by_cases hc : some e.2.ws ≠ some w ∧ env e.2.ws
        · rw [if_pos hc] at hfe
          cases hfe
          simpa using hc.1
        · rw [if_neg hc] at hfe; cases hfe

theorem leaveRoom_rooms_spec_v1 (env : Env) (st : V1.St) (w : ConnId) (c : Str) :
    mget (V1.leaveRoom env st w).1.rooms c = mget st.rooms c ∨
    mget (V1.leaveRoom env st w).1.rooms c = none ∨
    ∃ r uid, mget st.rooms c = some r ∧
      mget (V1.leaveRoom env st w).1.rooms c =
        some { r with listeners := mdel r.listeners uid } := by
  cases hinfo : mget st.clientRooms w with
  | none => left; simp [V1.leaveRoom, hinfo]
  | some info =>
      cases hroom : mget st.rooms info.roomCode with
      | none => left; simp [V1.leaveRoom, hinfo, hroom]
      | some room =>
          by_cases hrole : info.role = Role.host
          · by_cases hc : c = info.roomCode
            · subst hc
              right; left
              simp [V1.leaveRoom, hinfo, hroom, hrole, mget_mdel_self]
            · left
              simp only [V1.leaveRoom, hinfo, hroom, hrole, if_pos]
              exact mget_mdel_ne _ _ _ hc
          · by_cases hc : c = info.roomCode
            · subst hc
              right; right
              exact ⟨room, info.userId, hroom,
                by simp [V1.leaveRoom, hinfo, hroom, hrole, mget_mset_self]⟩
            · left
              simp only [V1.leaveRoom, hinfo, hroom, hrole, if_neg]
              exact mget_mset_ne _ _ _ _ (fun h => hc h.symm)

theorem leaveRoom_clientRooms_spec_v1 (env : Env) (st : V1.St) (w : ConnId) :
    (V1.leaveRoom env st w).1.clientRooms = st.clientRooms ∨
    (V1.leaveRoom env st w).1.clientRooms = mdel st.clientRooms w := by
  cases hinfo : mget st.clientRooms w with
  | none => left; simp [V1.leaveRoom, hinfo]
  | some info =>
      cases hroom : mget st.rooms info.roomCode with
      | none => left; simp [V1.leaveRoom, hinfo, hroom]
      | some room =>
          by_cases hrole : info.role = Role.host
          · right; simp [V1.leaveRoom, hinfo, hroom, hrole]
          · right; simp [V1.leaveRoom, hinfo, hroom, hrole]

theorem leaveRoom_noop_v1 (env : Env) (st : V1.St) (w : ConnId)
    (h : mget st.clientRooms w = none) : V1.leaveRoom env st w = (st, []) := by
  simp [V1.leaveRoom, h]

theorem disconnectCleanup_idem_v1 (env : Env) (st : V1.St) (w : ConnId) :
    V1.disconnectCleanup env (V1.disconnectCleanup env st w).1 w =
      ((V1.disconnectCleanup env st w).1, []) := by
  have h1 : (V1.disconnectCleanup env st w).1.clientRooms = mdel st.clientRooms w := by
    rcases leaveRoom_clientRooms_spec_v1 env st w with h | h
    · simp [V1.disconnectCleanup, h]
    · simp [V1.disconnectCleanup, h, mdel_mdel]
  have h2 : mget (V1.disconnectCleanup env st w).1.clientRooms w = none := by
    rw [h1]
    exact mget_mdel_self _ _
  have h3 : V1.leaveRoom env (V1.disconnectCleanup env st w).1 w =
      ((V1.disconnectCleanup env st w).1, []) := leaveRoom_noop_v1 _ _ _ h2
  have h4 : mdel (V1.disconnectCleanup env st w).1.clientRooms w =
      (V1.disconnectCleanup env st w).1.clientRooms := by
    rw [h1, mdel_mdel]
  show (⟨(V1.leaveRoom env (V1.disconnectCleanup env st w).1 w).1.rooms,
          mdel (V1.leaveRoom env (V1.disconnectCleanup env st w).1 w).1.clientRooms w⟩,
        (V1.leaveRoom env (V1.disconnectCleanup env st w).1 w).2) =
      ((V1.disconnectCleanup env st w).1, [])
  rw [h3]
  simp only
  rw [h4]

theorem leaveRoom_no_error_v1 (env : Env) (st : V1.St) (w : ConnId) :
    ∀ d ∈ (V1.leaveRoom env st w).2, ∀ s, d.2 ≠ V1.Out.error s := by
  intro d hd s
  cases hinfo : mget st.clientRooms w with
  | none => simp [V1.leaveRoom, hinfo] at hd
  | some info =>
      cases hroom : mget st.rooms info.roomCode with
      | none => simp [V1.leaveRoom, hinfo, hroom] at hd
      | some room =>
          by_cases hrole : info.role = Role.host
          · simp only [V1.leaveRoom, hinfo, hroom, hrole, if_pos] at hd
            have := broadcast_snd_v1 env st.rooms info.roomCode
              (V1.Out.roomClosed "The host has ended the session.".data) (some w) d hd
            simp [this]
          · simp only [V1.leaveRoom, hinfo, hroom, hrole, if_neg] at hd
            have := broadcast_snd_v1 env
              (mset st.rooms info.roomCode
                { room with listeners := mdel room.listeners info.userId })
              info.roomCode _ none d hd
            simp [this]

/-- The environment in which every socket is open. -/
def envAll : Env := fun _ => true

/-- A concrete variant-1 room for witnesses: host on socket 1 and two
listeners on sockets 2 and 3. -/
def sampleRoom : V1.Room :=
  ⟨some ⟨1, "h1".data, "Al".data⟩,
   [("u2".data, ⟨2, "u2".data, "Bo".data⟩), ("u3".data, ⟨3, "u3".data, "Cy".data⟩)],
   none, 0⟩

def sampleSt : V1.St :=
  ⟨[("AAAAAA".data, sampleRoom)],
   [(1, ⟨"AAAAAA".data, "h1".data, "Al".data, Role.host⟩),
    (2, ⟨"AAAAAA".data, "u2".data, "Bo".data, Role.listener⟩),
    (3, ⟨"AAAAAA".data, "u3".data, "Cy".data, Role.listener⟩)]⟩

/-- **C2.** Whenever the host of a room departs through the shared
`leaveRoom` path (explicit `LEAVE_ROOM`, socket close/error, or the
heartbeat eviction all call it), the room is removed from the room
store, every remaining member with an open socket receives exactly one
`ROOM_CLOSED` notice, and the disconnect-cleanup path is idempotent: a
second invocation for the same connection mutates nothing and sends
nothing. -/
theorem c2_host_departure (env : Env) (st : V1.St) (w : ConnId)
    (info : ClientInfo) (room : V1.Room) (hm : Member)
    (hinfo : mget st.clientRooms w = some info)
    (hrole : info.role = Role.host)
    (hroom : mget st.rooms info.roomCode = some room)
    (hhost : room.host = some hm)
    (hmw : hm.ws = w)
    (hopen : ∀ e ∈ room.listeners, env e.2.ws = true)
    (hnw : ∀ e ∈ room.listeners, e.2.ws ≠ w)
    (hwsnodup : (room.listeners.map (fun e => e.2.ws)).Nodup) :
    mget (V1.leaveRoom env st w).1.rooms info.roomCode = none ∧
    (V1.leaveRoom env st w).2 =
      room.listeners.map (fun e =>
        (e.2.ws, V1.Out.roomClosed "The host has ended the session.".data)) ∧
    (∀ e ∈ room.listeners,
      ((V1.leaveRoom env st w).2.filter (fun d => d.1 = e.2.ws)).length = 1) ∧
    V1.disconnectCleanup env (V1.disconnectCleanup env st w).1 w =
      ((V1.disconnectCleanup env st w).1, []) := by
  have hstate : (V1.leaveRoom env st w).1 =
      ⟨mdel st.rooms info.roomCode, mdel st.clientRooms w⟩ := by
    simp [V1.leaveRoom, hinfo, hroom, hrole]
  have hout : (V1.leaveRoom env st w).2 =
      V1.broadcast env st.rooms info.roomCode
        (V1.Out.roomClosed "The host has ended the session.".data) (some w) := by
    simp [V1.leaveRoom, hinfo, hroom, hrole]
  have hb : V1.broadcast env st.rooms info.roomCode
      (V1.Out.roomClosed "The host has ended the session.".data) (some w) =
      room.listeners.map (fun e =>
        (e.2.ws, V1.Out.roomClosed "The host has ended the session.".data)) := by
    simp only [V1.broadcast, hroom, hhost, hmw]
    rw [if_neg (by simp)]
    rw [List.nil_append]
    apply listFilterMap_eq_map
    intro e he
    rw [if_pos ⟨by simpa using hnw e he, hopen e he⟩]
  refine ⟨?_, ?_, ?_, ?_⟩
  · rw [hstate]
    exact mget_mdel_self _ _
  · rw [hout, hb]
  · intro e he
    have hmm : room.listeners.map (fun e =>
        (e.2.ws, V1.Out.roomClosed "The host has ended the session.".data)) =
        (room.listeners.map (fun e => e.2.ws)).map (fun x =>
          (x, V1.Out.roomClosed "The host has ended the session.".data)) := by
      rw [List.map_map]
      rfl
    rw [hout, hb, hmm, List.filter_map, List.length_map]
    exact length_filter_eq_one_of_nodup _ _ hwsnodup (List.mem_map_of_mem _ he)
  · exact disconnectCleanup_idem_v1 env st w

/-- Witness for `c2_host_departure` on a concrete two-listener room. -/
theorem c2_host_departure_witness :
    mget (V1.leaveRoom envAll sampleSt 1).1.rooms "AAAAAA".data = none ∧
    (V1.leaveRoom envAll sampleSt 1).2 =
      sampleRoom.listeners.map (fun e =>
        (e.2.ws, V1.Out.roomClosed "The host has ended the session.".data)) ∧
    (∀ e ∈ sampleRoom.listeners,
      ((V1.leaveRoom envAll sampleSt 1).2.filter (fun d => d.1 = e.2.ws)).length = 1) ∧
    V1.disconnectCleanup envAll (V1.disconnectCleanup envAll sampleSt 1).1 1 =
      ((V1.disconnectCleanup envAll sampleSt 1).1, []) :=
  c2_host_departure envAll sampleSt 1
    ⟨"AAAAAA".data, "h1".data, "Al".data, Role.host⟩ sampleRoom
    ⟨1, "h1".data, "Al".data⟩
    (by decide) (by decide) (by decide) (by decide) (by decide)
    (by decide) (by decide) (by decide)

theorem leaveRoom_rooms_le_v1 (env : Env) (st : V1.St) (w : ConnId) (c : Str)
    (r' : V1.Room) (h : mget (V1.leaveRoom env st w).1.rooms c = some r') :
    ∃ r, mget st.rooms c = some r ∧ r'.listeners.length ≤ r.listeners.length := by
  rcases leaveRoom_rooms_spec_v1 env st w c with hs | hs | ⟨r, uid, hr, hs⟩
  · exact ⟨r', hs ▸ h, le_refl _⟩
  · rw [hs] at h
    cases h
  · rw [hs] at h
    injection h with h
    exact ⟨r, hr, h ▸ length_mdel_le r.listeners uid⟩

/-- A 50-listener listener map (distinct keys, distinct sockets). -/
def fullListeners : List (Str × Member) :=
  (List.range 50).map (fun i =>
    ([Char.ofNat (65 + i)], ⟨100 + i, [Char.ofNat (65 + i)], "L".data⟩))

def fullRoomV1 : V1.Room := ⟨some ⟨1, "h1".data, "Al".data⟩, fullListeners, none, 0⟩

def fullStV1 : V1.St :=
  ⟨[("AAAAAA".data, fullRoomV1)],
   [(1, ⟨"AAAAAA".data, "h1".data, "Al".data, Role.host⟩)]⟩

/-- **C10.** A rejected `JOIN_ROOM` (room not found, or room full) is
atomic in variants 1 and 2: the state — including the sender's prior
membership and every room's listener set — is returned unchanged, and
the only output is the single `ERROR` reply to the sender; the implicit
leave of the prior room runs only after both validations pass. -/
theorem c10_join_rejection_atomic (env : Env) (st1 : V1.St) (st2 : V2.St)
    (w : ConnId) (uid code name : Str) :
    (mget st1.rooms (jsTrim (jsUpper code)) = none →
      V1.handleJoinRoom env st1 w uid code name =
        (st1, V1.sendTo env w
          (V1.Out.error "Room not found. Check the code and try again.".data))) ∧
    (∀ room, mget st1.rooms (jsTrim (jsUpper code)) = some room →
      50 ≤ room.listeners.length →
      V1.handleJoinRoom env st1 w uid code name =
        (st1, V1.sendTo env w (V1.Out.error "Room is full (max 50 listeners).".data))) ∧
    (mget st2.rooms (jsTrim (jsUpper code)) = none →
      V2.handleJoinRoom env st2 w uid code name =
        (st2, V2.sendTo env w
          (V2.Out.error "Room not found. Check the code and try again.".data))) ∧
    (∀ room, mget st2.rooms (jsTrim (jsUpper code)) = some room →
      50 ≤ room.listeners.length →
      V2.handleJoinRoom env st2 w uid code name =
        (st2, V2.sendTo env w (V2.Out.error "Room is full (max 50 listeners).".data))) := by
  refine ⟨?_, ?_, ?_, ?_⟩
  · intro h
    simp [V1.handleJoinRoom, h]
  · intro room h hfull
    simp [V1.handleJoinRoom, h, hfull]
  · intro h
    simp [V2.handleJoinRoom, h]
  · intro room h hfull
    simp [V2.handleJoinRoom, h, hfull]

/-- Witness for `c10_join_rejection_atomic`: an unknown code and a full
room, both rejected without touching the state. -/
theorem c10_join_rejection_atomic_witness :
    (V1.handleJoinRoom envAll sampleSt 9 "u9".data "zzzzzz".data "Zed".data =
      (sampleSt, V1.sendTo envAll 9
        (V1.Out.error "Room not found. Check the code and try again.".data))) ∧
    (V1.handleJoinRoom envAll fullStV1 9 "u9".data "AAAAAA".data "Zed".data =
      (fullStV1, V1.sendTo envAll 9
        (V1.Out.error "Room is full (max 50 listeners).".data))) :=
  ⟨(c10_join_rejection_atomic envAll sampleSt ⟨[], []⟩ 9
      "u9".data "zzzzzz".data "Zed".data).1 (by decide),
   (c10_join_rejection_atomic envAll fullStV1 ⟨[], []⟩ 9
      "u9".data "AAAAAA".data "Zed".data).2.1 fullRoomV1 (by decide) (by decide)⟩

/-- **C3** (amended).  In variants 1 and 2 a `JOIN_ROOM` into an
existing room is rejected with the `RoomFull` error exactly when the
listener count is 50 and never below, and the handler preserves the
invariant that no listener set exceeds 50.  (Variant 3, also cited by
the claim, performs no capacity check at all — see the
counterexample.) -/
theorem c3_capacity (env : Env) (st : V1.St) (w : ConnId) (uid code name : Str) :
    (∀ room, mget st.rooms (jsTrim (jsUpper code)) = some room →
      room.listeners.length = 50 →
      V1.handleJoinRoom env st w uid code name =
        (st, V1.sendTo env w (V1.Out.error "Room is full (max 50 listeners).".data))) ∧
    (∀ room, mget st.rooms (jsTrim (jsUpper code)) = some room →
      room.listeners.length < 50 →
      ∀ d ∈ (V1.handleJoinRoom env st w uid code name).2,
        d.2 ≠ V1.Out.error "Room is full (max 50 listeners).".data) ∧
    ((∀ c r, mget st.rooms c = some r → r.listeners.length ≤ 50) →
      ∀ c r, mget (V1.handleJoinRoom env st w uid code name).1.rooms c = some r →
        r.listeners.length ≤ 50) := by
  refine ⟨?_, ?_, ?_⟩
  · intro room h h50
    simp [V1.handleJoinRoom, h, h50]
  · intro room h hlt d hd
    have hfull : ¬(50 ≤ room.listeners.length) := by omega
    simp only [V1.handleJoinRoom, h, if_neg hfull] at hd
    rcases List.mem_append.mp hd with hd | hd
    · rcases List.mem_append.mp hd with hd | hd
      · exact leaveRoom_no_error_v1 env st w d hd _
      · unfold V1.sendTo at hd
        by_cases he : env w = true
        · rw [if_pos he] at hd
          simp at hd
          subst hd
          simp
        · rw [if_neg he] at hd
          cases hd
    · have := broadcast_snd_v1 env _ _ _ _ d hd
      simp [this]
  · intro hcap c r hr
    cases hroom : mget st.rooms (jsTrim (jsUpper code)) with
    | none =>
        simp only [V1.handleJoinRoom, hroom] at hr
        exact hcap c r hr
    | some roomJ =>
        by_cases hfull : 50 ≤ roomJ.listeners.length
        · simp only [V1.handleJoinRoom, hroom, if_pos hfull] at hr
          exact hcap c r hr
        · simp only [V1.handleJoinRoom, hroom, if_neg hfull] at hr
          cases hmid : mget (V1.leaveRoom env st w).1.rooms (jsTrim (jsUpper code)) with
          | none =>
              simp only [hmid] at hr
              obtain ⟨r0, hr0, hle⟩ := leaveRoom_rooms_le_v1 env st w c r hr
              exact le_trans hle (hcap c r0 hr0)
          | some r0 =>
              obtain ⟨rOrig, hrOrig, hle0⟩ := leaveRoom_rooms_le_v1 env st w _ r0 hmid
              rw [hroom] at hrOrig
              injection hrOrig with hrOrig
              by_cases hc : c = jsTrim (jsUpper code)
              · subst hc
                simp only [hmid, mget_mset_self] at hr
                injection hr with hr
                subst hr
                refine le_trans (length_mset_le _ _ _) ?_
                have h2 : rOrig.listeners.length < 50 := by
                  rw [← hrOrig]
                  omega
                omega
              · simp only [hmid] at hr
                rw [mget_mset_ne _ _ _ _ (fun hh => hc hh.symm)] at hr
                obtain ⟨r1, hr1, hle1⟩ := leaveRoom_rooms_le_v1 env st w c r hr
                exact le_trans hle1 (hcap c r1 hr1)

/-- Witness for `c3_capacity`: rejection at exactly 50 listeners. -/
theorem c3_capacity_witness :
    V1.handleJoinRoom envAll fullStV1 9 "u9".data "AAAAAA".data "Zed".data =
      (fullStV1, V1.sendTo envAll 9
        (V1.Out.error "Room is full (max 50 listeners).".data)) :=
  (c3_capacity envAll fullStV1 9 "u9".data "AAAAAA".data "Zed".data).1
    fullRoomV1 (by decide) (by decide)

def fullRoomV3 : V3.Room :=
  ⟨"BBBBBB".data, 1, "h1".data, "Al".data, fullListeners, none, false⟩

def fullStV3 : V3.St :=
  ⟨[("BBBBBB".data, fullRoomV3)],
   [(1, ⟨"BBBBBB".data, "h1".data, "Al".data, Role.host⟩)]⟩

/-- **C3 counterexample.**  The variant-3 `JOIN_ROOM` handler (cited by
the claim) has no capacity check: joining a room that already holds 50
listeners succeeds — no error is sent — and its listener set grows to
51, so admission is not "rejected exactly at 50" and the 50-listener
bound does not hold for every `JOIN_ROOM` handler of the program. -/
theorem c3_cex :
    (mget (V3.handleJoinRoom envAll fullStV3 9 "zz".data "BBBBBB".data "Zed".data).1.rooms
        "BBBBBB".data).map (fun r => r.listeners.length) = some 51 ∧
    ((V3.handleJoinRoom envAll fullStV3 9 "zz".data "BBBBBB".data "Zed".data).2.any
        (fun d => match d.2 with | V3.Out.error _ => true | _ => false)) = false := by
  decide

theorem leaveRoom_rooms_frame_v1 (env : Env) (st : V1.St) (w : ConnId) (c : Str)
    (hc : ∀ i, mget st.clientRooms w = some i → i.roomCode ≠ c) :
    mget (V1.leaveRoom env st w).1.rooms c = mget st.rooms c := by
  cases hinfo : mget st.clientRooms w with
  | none => simp [V1.leaveRoom, hinfo]
  | some info =>
      have hne := hc info hinfo
      cases hroom : mget st.rooms info.roomCode with
      | none => simp [V1.leaveRoom, hinfo, hroom]
      | some room =>
          by_cases hrole : info.role = Role.host
          · simp only [V1.leaveRoom, hinfo, hroom, hrole, if_pos]
            exact mget_mdel_ne _ _ _ (Ne.symm hne)
          · simp only [V1.leaveRoom, hinfo, hroom, hrole, if_neg]
            exact mget_mset_ne _ _ _ _ hne

/-- **C1** (amended).  In variant 1, after a successful `JOIN_ROOM`
into a different room, and after any `CREATE_ROOM` issuing a fresh
code, the connection's registry entry is exactly the new membership
(one entry, keyed by the socket), and the prior room reflects the
departure: destroyed if the connection was its host, listener entry
removed (count decremented) if it was a listener.  (Variant 3, also
cited by the claim, installs the new membership without leaving the
prior room — see the counterexample.) -/
theorem c1_single_membership (env : Env) (st : V1.St) (w : ConnId)
    (uid code name : Str) (info₀ : ClientInfo) (roomB roomJ : V1.Room)
    (hinfo : mget st.clientRooms w = some info₀)
    (hroomB : mget st.rooms info₀.roomCode = some roomB)
    (hcnodup : (st.clientRooms.map Prod.fst).Nodup)
    (hroomJ : mget st.rooms (jsTrim (jsUpper code)) = some roomJ)
    (hlt : roomJ.listeners.length < 50)
    (hne : info₀.roomCode ≠ jsTrim (jsUpper code)) :
    ((mget (V1.handleJoinRoom env st w uid code name).1.clientRooms w =
        some ⟨jsTrim (jsUpper code), uid, (orElse name "Listener".data).take 20,
          Role.listener⟩) ∧
     (((V1.handleJoinRoom env st w uid code name).1.clientRooms.map Prod.fst).count w = 1) ∧
     (info₀.role = Role.host →
        mget (V1.handleJoinRoom env st w uid code name).1.rooms info₀.roomCode = none) ∧
     (info₀.role = Role.listener →
        mget (V1.handleJoinRoom env st w uid code name).1.rooms info₀.roomCode =
          some { roomB with listeners := mdel roomB.listeners info₀.userId }) ∧
     (info₀.role = Role.listener → (roomB.listeners.map Prod.fst).Nodup →
        ∀ v, mget roomB.listeners info₀.userId = some v →
        ∃ roomB', mget (V1.handleJoinRoom env st w uid code name).1.rooms info₀.roomCode =
            some roomB' ∧ roomB'.listeners.length + 1 = roomB.listeners.length)) ∧
    (∀ draws now, info₀.roomCode ≠ generateRoomCode draws →
     (mget (V1.handleCreateRoom env st w uid name draws now).1.clientRooms w =
        some ⟨generateRoomCode draws, uid, (orElse name "Host".data).take 20, Role.host⟩) ∧
     (((V1.handleCreateRoom env st w uid name draws now).1.clientRooms.map Prod.fst).count w
        = 1) ∧
     (info₀.role = Role.host →
        mget (V1.handleCreateRoom env st w uid name draws now).1.rooms info₀.roomCode
          = none) ∧
     (info₀.role = Role.listener →
        mget (V1.handleCreateRoom env st w uid name draws now).1.rooms info₀.roomCode =
          some { roomB with listeners := mdel roomB.listeners info₀.userId })) := by
  have hfull : ¬(50 ≤ roomJ.listeners.length) := by omega
  have hphost : info₀.role = Role.host →
      (V1.leaveRoom env st w).1.rooms = mdel st.rooms info₀.roomCode := by
    intro hr
    simp [V1.leaveRoom, hinfo, hroomB, hr]
  have hplist : info₀.role = Role.listener →
      (V1.leaveRoom env st w).1.rooms = mset st.rooms info₀.roomCode
        { roomB with listeners := mdel roomB.listeners info₀.userId } := by
    intro hr
    simp [V1.leaveRoom, hinfo, hroomB, hr]
  have hccount : ∀ i : ClientInfo,
      ((mset (V1.leaveRoom env st w).1.clientRooms w i).map Prod.fst).count w = 1 := by
    intro i
    apply count_keys_mset
    rcases leaveRoom_clientRooms_spec_v1 env st w with h | h
    · rw [h]; exact hcnodup
    · rw [h]; exact nodup_keys_mdel _ _ hcnodup
  constructor
  · have hm2 : mget (V1.leaveRoom env st w).1.rooms (jsTrim (jsUpper code)) =
        some roomJ := by
      have hframe := leaveRoom_rooms_frame_v1 env st w (jsTrim (jsUpper code))
        (fun i hi => by
          rw [hinfo] at hi
          injection hi with hi
          rw [← hi]
          exact hne)
      rw [hframe]
      exact hroomJ
    have hredR : (V1.handleJoinRoom env st w uid code name).1.rooms =
        mset (V1.leaveRoom env st w).1.rooms (jsTrim (jsUpper code))
          { roomJ with
            listeners :=
              mset roomJ.listeners uid (Member.mk w uid ((orElse name "Listener".data).take 20)) } := by
      simp only [V1.handleJoinRoom, hroomJ, if_neg hfull, hm2]
    have hredC : (V1.handleJoinRoom env st w uid code name).1.clientRooms =
        mset (V1.leaveRoom env st w).1.clientRooms w
          (ClientInfo.mk (jsTrim (jsUpper code)) uid
            ((orElse name "Listener".data).take 20) Role.listener) := by
      simp only [V1.handleJoinRoom, hroomJ, if_neg hfull]
    refine ⟨?_, ?_, ?_, ?_, ?_⟩
    · rw [hredC]
      exact mget_mset_self _ _ _
    · rw [hredC]
      exact hccount _
    · intro hrole
      rw [hredR, mget_mset_ne _ _ _ _ (Ne.symm hne), hphost hrole]
      exact mget_mdel_self _ _
    · intro hrole
      rw [hredR, mget_mset_ne _ _ _ _ (Ne.symm hne), hplist hrole]
      exact mget_mset_self _ _ _
    · intro hrole hnodup v hv
      refine ⟨{ roomB with listeners := mdel roomB.listeners info₀.userId }, ?_, ?_⟩
      · rw [hredR, mget_mset_ne _ _ _ _ (Ne.symm hne), hplist hrole]
        exact mget_mset_self _ _ _
      · exact length_mdel_of_mget_some _ _ _ hnodup hv
  · intro draws now hneC
    have hredR : (V1.handleCreateRoom env st w uid name draws now).1.rooms =
        mset (V1.leaveRoom env st w).1.rooms (generateRoomCode draws)
          (V1.Room.mk (some (Member.mk w uid ((orElse name "Host".data).take 20)))
            [] none now) := by
      simp only [V1.handleCreateRoom]
    have hredC : (V1.handleCreateRoom env st w uid name draws now).1.clientRooms =
        mset (V1.leaveRoom env st w).1.clientRooms w
          (ClientInfo.mk (generateRoomCode draws) uid
            ((orElse name "Host".data).take 20) Role.host) := by
      simp only [V1.handleCreateRoom]
    refine ⟨?_, ?_, ?_, ?_⟩
    · rw [hredC]
      exact mget_mset_self _ _ _
    · rw [hredC]
      exact hccount _
    · intro hrole
      rw [hredR, mget_mset_ne _ _ _ _ (Ne.symm hneC), hphost hrole]
      exact mget_mdel_self _ _
    · intro hrole
      rw [hredR, mget_mset_ne _ _ _ _ (Ne.symm hneC), hplist hrole]
      exact mget_mset_self _ _ _

/-- A second variant-1 state for the C1 witness: the two-listener room
`AAAAAA` plus an empty room `BBBBBB` hosted by socket 5. -/
def roomB0 : V1.Room := ⟨some ⟨5, "h5".data, "Ed".data⟩, [], none, 0⟩

def twoRoomSt : V1.St :=
  ⟨[("AAAAAA".data, sampleRoom), ("BBBBBB".data, roomB0)],
   [(1, ⟨"AAAAAA".data, "h1".data, "Al".data, Role.host⟩),
    (2, ⟨"AAAAAA".data, "u2".data, "Bo".data, Role.listener⟩),
    (3, ⟨"AAAAAA".data, "u3".data, "Cy".data, Role.listener⟩),
    (5, ⟨"BBBBBB".data, "h5".data, "Ed".data, Role.host⟩)]⟩

/-- Witness for `c1_single_membership`: socket 3, a listener of
`AAAAAA`, joins `bbbbbb` (case-normalised). -/
theorem c1_single_membership_witness :
    ((mget (V1.handleJoinRoom envAll twoRoomSt 3 "u3".data "bbbbbb".data "Cy".data).1.clientRooms 3 =
        some ⟨jsTrim (jsUpper "bbbbbb".data), "u3".data,
          (orElse "Cy".data "Listener".data).take 20, Role.listener⟩) ∧
     (((V1.handleJoinRoom envAll twoRoomSt 3 "u3".data "bbbbbb".data "Cy".data).1.clientRooms.map
        Prod.fst).count 3 = 1) ∧
     ((⟨"AAAAAA".data, "u3".data, "Cy".data, Role.listener⟩ : ClientInfo).role = Role.host →
        mget (V1.handleJoinRoom envAll twoRoomSt 3 "u3".data "bbbbbb".data "Cy".data).1.rooms
          "AAAAAA".data = none) ∧
     ((⟨"AAAAAA".data, "u3".data, "Cy".data, Role.listener⟩ : ClientInfo).role = Role.listener →
        mget (V1.handleJoinRoom envAll twoRoomSt 3 "u3".data "bbbbbb".data "Cy".data).1.rooms
          "AAAAAA".data =
          some { sampleRoom with listeners := mdel sampleRoom.listeners "u3".data }) ∧
     ((⟨"AAAAAA".data, "u3".data, "Cy".data, Role.listener⟩ : ClientInfo).role = Role.listener →
        (sampleRoom.listeners.map Prod.fst).Nodup →
        ∀ v, mget sampleRoom.listeners "u3".data = some v →
        ∃ roomB', mget (V1.handleJoinRoom envAll twoRoomSt 3 "u3".data "bbbbbb".data
            "Cy".data).1.rooms "AAAAAA".data = some roomB' ∧
          roomB'.listeners.length + 1 = sampleRoom.listeners.length)) ∧
    (∀ draws now, "AAAAAA".data ≠ generateRoomCode draws →
     (mget (V1.handleCreateRoom envAll twoRoomSt 3 "u3".data "Cy".data draws
        now).1.clientRooms 3 =
        some ⟨generateRoomCode draws, "u3".data, (orElse "Cy".data "Host".data).take 20,
          Role.host⟩) ∧
     (((V1.handleCreateRoom envAll twoRoomSt 3 "u3".data "Cy".data draws now).1.clientRooms.map
        Prod.fst).count 3 = 1) ∧
     ((⟨"AAAAAA".data, "u3".data, "Cy".data, Role.listener⟩ : ClientInfo).role = Role.host →
        mget (V1.handleCreateRoom envAll twoRoomSt 3 "u3".data "Cy".data draws now).1.rooms
          "AAAAAA".data = none) ∧
     ((⟨"AAAAAA".data, "u3".data, "Cy".data, Role.listener⟩ : ClientInfo).role = Role.listener →
        mget (V1.handleCreateRoom envAll twoRoomSt 3 "u3".data "Cy".data draws now).1.rooms
          "AAAAAA".data =
          some { sampleRoom with listeners := mdel sampleRoom.listeners "u3".data })) :=
  c1_single_membership envAll twoRoomSt 3 "u3".data "bbbbbb".data "Cy".data
    ⟨"AAAAAA".data, "u3".data, "Cy".data, Role.listener⟩ sampleRoom roomB0
    (by decide) (by decide) (by decide) (by decide) (by decide) (by decide)

def c1RoomA : V3.Room := ⟨"AAAAAA".data, 1, "h1".data, "Al".data, [], none, false⟩

def c1RoomB : V3.Room := ⟨"BBBBBB".data, 2, "h2".data, "Ed".data, [], none, false⟩

def c1StV3 : V3.St :=
  ⟨[("AAAAAA".data, c1RoomA), ("BBBBBB".data, c1RoomB)],
   [(1, ⟨"AAAAAA".data, "h1".data, "Al".data, Role.host⟩),
    (2, ⟨"BBBBBB".data, "h2".data, "Ed".data, Role.host⟩)]⟩

/-- **C1 counterexample.**  In the variant-3 `JOIN_ROOM` handler (cited
by the claim), socket 1 — host of live room `AAAAAA` — successfully
joins room `BBBBBB`; afterwards its registry entry is the new listener
membership, but the prior room `AAAAAA` is *not* destroyed: it survives
unchanged, still recording socket 1 as its host, so the prior room does
not reflect the departure. -/
theorem c1_cex :
    (mget (V3.handleJoinRoom envAll c1StV3 1 "n1".data "BBBBBB".data "Al".data).1.clientRooms 1 =
      some ⟨"BBBBBB".data, "n1".data, "Al".data, Role.listener⟩) ∧
    (mget (V3.handleJoinRoom envAll c1StV3 1 "n1".data "BBBBBB".data "Al".data).1.rooms
      "AAAAAA".data = some c1RoomA) ∧
    ((V3.handleJoinRoom envAll c1StV3 1 "n1".data "BBBBBB".data "Al".data).2.any
      (fun d => match d.2 with | V3.Out.roomJoined _ _ _ => true | _ => false)) = true := by
  decide

theorem roomChars_getD_mem (n : Nat) : roomChars.getD n 'A' ∈ roomChars := by
  by_cases h : n < roomChars.length
  · rw [List.getD_eq_getElem roomChars 'A' h]
    exact List.getElem_mem h
  · rw [List.getD_eq_default roomChars 'A' (Nat.le_of_not_lt h)]
    decide

/-- **C4** (amended).  Every code issued by the generator has length 6
and is drawn from the 32-character alphabet
`ABCDEFGHJKLMNPQRSTUVWXYZ23456789`; however, uniqueness among live
rooms is *not* checked and there is no retry: `CREATE_ROOM` installs the
generated code unconditionally, replacing any existing room stored
under it. -/
theorem c4_room_codes :
    (∀ draws, (generateRoomCode draws).length = 6) ∧
    (∀ draws, ∀ c ∈ generateRoomCode draws, c ∈ roomChars) ∧
    (∀ env st w uid nm draws now,
      mget (V1.handleCreateRoom env st w uid nm draws now).1.rooms (generateRoomCode draws) =
        some (V1.Room.mk (some (Member.mk w uid ((orElse nm "Host".data).take 20)))
          [] none now)) := by
  refine ⟨?_, ?_, ?_⟩
  · intro draws
    simp [generateRoomCode]
  · intro draws c hc
    simp only [generateRoomCode, List.mem_map] at hc
    obtain ⟨i, _, hi⟩ := hc
    rw [← hi]
    exact roomChars_getD_mem _
  · intro env st w uid nm draws now
    simp only [V1.handleCreateRoom]
    exact mget_mset_self _ _ _

/-- Witness for `c4_room_codes`. -/
theorem c4_room_codes_witness :
    ((generateRoomCode [31, 31, 31, 31, 31, 31]).length = 6) ∧
    ('9' ∈ roomChars) ∧
    (mget (V1.handleCreateRoom envAll sampleSt 9 "u9".data "Zed".data
        [0, 0, 0, 0, 0, 0] 7).1.rooms (generateRoomCode [0, 0, 0, 0, 0, 0]) =
      some (V1.Room.mk (some (Member.mk 9 "u9".data
        ((orElse "Zed".data "Host".data).take 20))) [] none 7)) :=
  ⟨c4_room_codes.1 [31, 31, 31, 31, 31, 31],
   c4_room_codes.2.1 [31, 31, 31, 31, 31, 31] '9' (by decide),
   c4_room_codes.2.2 envAll sampleSt 9 "u9".data "Zed".data [0, 0, 0, 0, 0, 0] 7⟩

/-- **C4 counterexample.**  With the room `AAAAAA` live, a draw
sequence hitting the same code makes `CREATE_ROOM` issue `AAAAAA`
again — announced in its `ROOM_CREATED` reply — and silently replace
the existing room with the new host's room; no retry occurs, so an
in-use code *is* issued. -/
theorem c4_cex :
    (mget sampleSt.rooms "AAAAAA".data = some sampleRoom) ∧
    (generateRoomCode [0, 0, 0, 0, 0, 0] = "AAAAAA".data) ∧
    ((V1.handleCreateRoom envAll sampleSt 9 "u9".data "Zed".data
        [0, 0, 0, 0, 0, 0] 7).2.any (fun d =>
          match d.2 with
          | V1.Out.roomCreated rc _ _ => rc == "AAAAAA".data
          | _ => false)) = true ∧
    (mget (V1.handleCreateRoom envAll sampleSt 9 "u9".data "Zed".data
        [0, 0, 0, 0, 0, 0] 7).1.rooms "AAAAAA".data =
      some (V1.Room.mk (some (Member.mk 9 "u9".data "Zed".data)) [] none 7)) := by
  decide

/-- **C9** (amended).  A run of the staleness sweep destroys a room if
and only if its listener set is empty **and the room's age since
creation** exceeds the 6-hour threshold; a room with at least one
listener is never destroyed regardless of age, and a listener-less room
is destroyed past the threshold irrespective of its host. -/
theorem c9_sweep (now : Nat) (rooms : List (Str × V1.Room))
    (hnodup : (rooms.map Prod.fst).Nodup) :
    ∀ code room, mget rooms code = some room →
      (mget (V1.sweepStale now rooms) code =
        (if room.listeners.length = 0 ∧ staleMs < now - room.createdAt
         then none else some room)) ∧
      (0 < room.listeners.length → mget (V1.sweepStale now rooms) code = some room) ∧
      (room.listeners.length = 0 → staleMs < now - room.createdAt →
        mget (V1.sweepStale now rooms) code = none) := by
  intro code room h
  have hf := mget_filter_of_nodup
    (fun e => if e.2.listeners.length = 0 ∧ staleMs < now - e.2.createdAt then false else true)
    rooms code room hnodup h
  have hb : (fun (e : Str × V1.Room) =>
      if e.2.listeners.length = 0 ∧ staleMs < now - e.2.createdAt then false else true)
      (code, room) =
      (if room.listeners.length = 0 ∧ staleMs < now - room.createdAt
       then false else true) := rfl
  rw [hb] at hf
  have hmain : mget (V1.sweepStale now rooms) code =
      (if room.listeners.length = 0 ∧ staleMs < now - room.createdAt
       then none else some room) := by
    show mget (rooms.filter _) code = _
    rw [hf]
    by_cases hcond : room.listeners.length = 0 ∧ staleMs < now - room.createdAt
    · simp only [if_pos hcond]
      simp
    · simp only [if_neg hcond]
      simp
  refine ⟨hmain, ?_, ?_⟩
  · intro hpos
    rw [hmain, if_neg]
    rintro ⟨h1, _⟩
    omega
  · intro h0 hage
    rw [hmain, if_pos ⟨h0, hage⟩]

/-- Witness for `c9_sweep` on a two-room store: a populated room
survives, an old empty room is destroyed. -/
theorem c9_sweep_witness :
    (mget (V1.sweepStale (staleMs + 5) [("AAAAAA".data, sampleRoom), ("BBBBBB".data, roomB0)])
        "AAAAAA".data =
      (if sampleRoom.listeners.length = 0 ∧ staleMs < (staleMs + 5) - sampleRoom.createdAt
       then none else some sampleRoom)) ∧
    (0 < sampleRoom.listeners.length →
      mget (V1.sweepStale (staleMs + 5) [("AAAAAA".data, sampleRoom), ("BBBBBB".data, roomB0)])
        "AAAAAA".data = some sampleRoom) ∧
    (sampleRoom.listeners.length = 0 → staleMs < (staleMs + 5) - sampleRoom.createdAt →
      mget (V1.sweepStale (staleMs + 5) [("AAAAAA".data, sampleRoom), ("BBBBBB".data, roomB0)])
        "AAAAAA".data = none) :=
  c9_sweep (staleMs + 5) [("AAAAAA".data, sampleRoom), ("BBBBBB".data, roomB0)]
    (by decide) "AAAAAA".data sampleRoom (by decide)

def c9St1 : V1.St :=
  (V1.handleCreateRoom envAll ⟨[], []⟩ 1 "h1".data "Al".data [0, 0, 0, 0, 0, 0] 0).1

def c9St2 : V1.St := (V1.handleJoinRoom envAll c9St1 2 "u2".data "AAAAAA".data "Bob".data).1

def c9St3 : V1.St := (V1.leaveRoom envAll c9St2 2).1

/-- **C9 counterexample.**  Room `AAAAAA` is created at time 0 and
holds a listener until just before the sweep: at time `staleMs + 1` the
sweep would keep it (a listener is present), the listener then leaves,
and the sweep at time `staleMs + 2` destroys it — although the room has
been empty of listeners for only one tick, far less than the 6-hour
threshold.  Destruction is decided by age since creation, not by how
long the room has been empty of listeners, refuting the claim's
if-and-only-if condition. -/
theorem c9_cex :
    ((mget c9St2.rooms "AAAAAA".data).map (fun r => r.listeners.length) = some 1) ∧
    (mget (V1.sweepStale (staleMs + 1) c9St2.rooms) "AAAAAA".data ≠ none) ∧
    ((mget c9St3.rooms "AAAAAA".data).map (fun r => r.listeners.length) = some 0) ∧
    (mget (V1.sweepStale (staleMs + 2) c9St3.rooms) "AAAAAA".data = none) := by
  decide

/-- **C5** (amended).  CONTROL and SEARCH never mutate state, are never
broadcast (at most one recipient), and any delivery goes to the host
socket of the sender's room; in variant 1 a CONTROL is forwarded only
when the sender's role is listener, and when the sender is a listener
with a host on an open socket the forward does happen.  (In variant 2,
also cited by the claim, CONTROL is forwarded for *any* member,
including the host — see the counterexample.) -/
theorem c5_control_search (env : Env) (st : V1.St) (st2 : V2.St) (w : ConnId)
    (a q : Str) :
    ((V1.handleControl env st w a).1 = st) ∧
    ((V1.handleControl env st w a).2.length ≤ 1) ∧
    (∀ d ∈ (V1.handleControl env st w a).2,
      ∃ info room h, mget st.clientRooms w = some info ∧
        mget st.rooms info.roomCode = some room ∧ room.host = some h ∧
        info.role = Role.listener ∧
        d = (h.ws, V1.Out.control a info.name info.userId)) ∧
    (∀ info room h, mget st.clientRooms w = some info →
      mget st.rooms info.roomCode = some room → room.host = some h →
      info.role = Role.listener → env h.ws = true →
      (V1.handleControl env st w a).2 = [(h.ws, V1.Out.control a info.name info.userId)]) ∧
    ((V1.handleSearch env st w q).1 = st) ∧
    ((V1.handleSearch env st w q).2.length ≤ 1) ∧
    (∀ d ∈ (V1.handleSearch env st w q).2,
      ∃ info room h, mget st.clientRooms w = some info ∧
        mget st.rooms info.roomCode = some room ∧ room.host = some h ∧
        d = (h.ws, V1.Out.search (q.take 200) info.name)) ∧
    ((V2.handleControl env st2 w a).1 = st2) ∧
    ((V2.handleControl env st2 w a).2.length ≤ 1) ∧
    (∀ d ∈ (V2.handleControl env st2 w a).2,
      ∃ info room h, mget st2.clientRooms w = some info ∧
        mget st2.rooms info.roomCode = some room ∧ room.host = some h ∧
        d = (h.ws, V2.Out.control a info.name info.userId)) := by
  refine ⟨?_, ?_, ?_, ?_, ?_, ?_, ?_, ?_, ?_, ?_⟩
  · unfold V1.handleControl
    repeat' split
    all_goals rfl
  · unfold V1.handleControl V1.sendTo
    repeat' split
    all_goals simp
  · intro d hd
    unfold V1.handleControl at hd
    split at hd
    · simp at hd
    next info hinfo =>
      split at hd
      · simp at hd
      next room hroom =>
        split at hd
        next hrole =>
          split at hd
          next h hhost =>
            unfold V1.sendTo at hd
            split at hd
            · simp at hd
              subst hd
              exact ⟨info, room, h, hinfo, hroom, hhost, hrole, rfl⟩
            · simp at hd
          · simp at hd
        · simp at hd
  · intro info room h hinfo hroom hhost hrole hopen
    simp [V1.handleControl, hinfo, hroom, hrole, hhost, V1.sendTo, hopen]
  · unfold V1.handleSearch
    repeat' split
    all_goals rfl
  · unfold V1.handleSearch V1.sendTo
    repeat' split
    all_goals simp
  · intro d hd
    unfold V1.handleSearch at hd
    split at hd
    · simp at hd
    next info hinfo =>
      split at hd
      · simp at hd
      next room hroom =>
        split at hd
        next h hhost =>
          unfold V1.sendTo at hd
          split at hd
          · simp at hd
            subst hd
            exact ⟨info, room, h, hinfo, hroom, hhost, rfl⟩
          · simp at hd
        · simp at hd
  · unfold V2.handleControl
    repeat' split
    all_goals rfl
  · unfold V2.handleControl V2.sendTo
    repeat' split
    all_goals simp
  · intro d hd
    unfold V2.handleControl at hd
    split at hd
    · simp at hd
    next info hinfo =>
      split at hd
      · simp at hd
      next room hroom =>
        split at hd
        next h hhost =>
          unfold V2.sendTo at hd
          split at hd
          · simp at hd
            subst hd
            exact ⟨info, room, h, hinfo, hroom, hhost, rfl⟩
          · simp at hd
        · simp at hd

/-- Witness for `c5_control_search`: a listener's CONTROL reaches the
host and no one else. -/
theorem c5_control_search_witness :
    ((V1.handleControl envAll sampleSt 2 "TOGGLE".data).1 = sampleSt) ∧
    ((V1.handleControl envAll sampleSt 2 "TOGGLE".data).2 =
      [(1, V1.Out.control "TOGGLE".data "Bo".data "u2".data)]) :=
  ⟨(c5_control_search envAll sampleSt ⟨[], []⟩ 2 "TOGGLE".data "x".data).1,
   (c5_control_search envAll sampleSt ⟨[], []⟩ 2 "TOGGLE".data "x".data).2.2.2.1
     ⟨"AAAAAA".data, "u2".data, "Bo".data, Role.listener⟩ sampleRoom
     ⟨1, "h1".data, "Al".data⟩ (by decide) (by decide) (by decide) (by decide) (by decide)⟩

def c5StV2 : V2.St :=
  ⟨[("AAAAAA".data, V2.Room.mk (some (Member.mk 1 "h1".data "Al".data)) [] none 0)],
   [(1, ⟨"AAAAAA".data, "h1".data, "Al".data, Role.host⟩)]⟩

/-- **C5 counterexample.**  In the variant-2 CONTROL handler (cited by
the claim) the sender's role is never checked: a CONTROL sent by the
*host* (socket 1, role `host`) is forwarded to the host socket all the
same, so "a CONTROL is forwarded only when the sender's role is
listener" fails on variant 2. -/
theorem c5_cex :
    ((mget c5StV2.clientRooms 1).map ClientInfo.role = some Role.host) ∧
    ((V2.handleControl envAll c5StV2 1 "TOGGLE".data).2 =
      [(1, V2.Out.control "TOGGLE".data "Al".data "h1".data)]) := by
  decide

/-- **C7.**  A SIGNAL from a registered sender never mutates state and
is forwarded to at most one socket; in a well-formed room (listener map
keys equal the stored `userId`s) every delivery carries the sender's
identity plus the opaque payload and goes to the member of the sender's
room whose `userId` equals the target (host or listener); when
`findPeerWs` resolves no target the message is dropped silently — no
reply, no state change. -/
theorem c7_signal (env : Env) (st : V2.St) (w : ConnId) (target sig : Str) :
    ((V2.handleSignal env st w target sig).1 = st) ∧
    ((V2.handleSignal env st w target sig).2.length ≤ 1) ∧
    (∀ info room, mget st.clientRooms w = some info →
      mget st.rooms info.roomCode = some room →
      (∀ e ∈ room.listeners, e.2.userId = e.1) →
      ∀ d ∈ (V2.handleSignal env st w target sig).2,
        d.2 = V2.Out.signal info.userId info.name sig ∧
        ((∃ h, room.host = some h ∧ h.userId = target ∧ d.1 = h.ws) ∨
         (∃ e ∈ room.listeners, e.2.userId = target ∧ d.1 = e.2.ws))) ∧
    (∀ info room, mget st.clientRooms w = some info →
      mget st.rooms info.roomCode = some room →
      V2.findPeerWs room target = none →
      V2.handleSignal env st w target sig = (st, [])) := by
  refine ⟨?_, ?_, ?_, ?_⟩
  · unfold V2.handleSignal
    repeat' split
    all_goals rfl
  · unfold V2.handleSignal V2.sendTo
    repeat' split
    all_goals simp
  · intro info room hinfo hroom hwf d hd
    unfold V2.handleSignal at hd
    simp only [hinfo, hroom] at hd
    cases hfp : V2.findPeerWs room target with
    | none => simp only [hfp] at hd; simp at hd
    | some tw =>
        simp only [hfp] at hd
        unfold V2.sendTo at hd
        split at hd
        · simp at hd
          subst hd
          refine ⟨rfl, ?_⟩
          unfold V2.findPeerWs at hfp
          cases hhost : room.host with
          | some h =>
              simp only [hhost] at hfp
              split at hfp
              next hht =>
                injection hfp with hfp
                exact Or.inl ⟨h, rfl, hht, hfp.symm⟩
              next hht =>
                cases hml : mget room.listeners target with
                | none => rw [hml] at hfp; simp at hfp
                | some mem =>
                    rw [hml] at hfp
                    simp at hfp
                    refine Or.inr ⟨(target, mem), mget_mem _ _ _ hml,
                      hwf (target, mem) (mget_mem _ _ _ hml), ?_⟩
                    simp [hfp]
          | none =>
              simp only [hhost] at hfp
              cases hml : mget room.listeners target with
              | none => rw [hml] at hfp; simp at hfp
              | some mem =>
                  rw [hml] at hfp
                  simp at hfp
                  refine Or.inr ⟨(target, mem), mget_mem _ _ _ hml,
                    hwf (target, mem) (mget_mem _ _ _ hml), ?_⟩
                  simp [hfp]
        · simp at hd
  · intro info room hinfo hroom hfp
    unfold V2.handleSignal
    simp only [hinfo, hroom, hfp]

def c7Room : V2.Room :=
  ⟨some ⟨1, "h1".data, "Al".data⟩,
   [("u2".data, ⟨2, "u2".data, "Bo".data⟩)], none, 0⟩

def c7St : V2.St :=
  ⟨[("AAAAAA".data, c7Room)],
   [(1, ⟨"AAAAAA".data, "h1".data, "Al".data, Role.host⟩),
    (2, ⟨"AAAAAA".data, "u2".data, "Bo".data, Role.listener⟩)]⟩

/-- Witness for `c7_signal`: state preserved; a listener's signal to
the host resolves to exactly the host socket; an unresolvable target is
dropped with no output. -/
theorem c7_signal_witness :
    ((V2.handleSignal envAll c7St 2 "h1".data "BLOB".data).1 = c7St) ∧
    ((1, V2.Out.signal "u2".data "Bo".data "BLOB".data).2 =
        V2.Out.signal "u2".data "Bo".data "BLOB".data ∧
      ((∃ h, c7Room.host = some h ∧ h.userId = "h1".data ∧
          (1, V2.Out.signal "u2".data "Bo".data "BLOB".data).1 = h.ws) ∨
       (∃ e ∈ c7Room.listeners, e.2.userId = "h1".data ∧
          (1, V2.Out.signal "u2".data "Bo".data "BLOB".data).1 = e.2.ws))) ∧
    (V2.handleSignal envAll c7St 2 "zz".data "BLOB".data = (c7St, [])) :=
  ⟨(c7_signal envAll c7St 2 "h1".data "BLOB".data).1,
   (c7_signal envAll c7St 2 "h1".data "BLOB".data).2.2.1
     ⟨"AAAAAA".data, "u2".data, "Bo".data, Role.listener⟩ c7Room
     (by decide) (by decide) (by decide)
     (1, V2.Out.signal "u2".data "Bo".data "BLOB".data) (by decide),
   (c7_signal envAll c7St 2 "zz".data "BLOB".data).2.2.2
     ⟨"AAAAAA".data, "u2".data, "Bo".data, Role.listener⟩ c7Room
     (by decide) (by decide) (by decide)⟩

/-- **C6.**  For a registered sender whose room exists: CHAT and
REACTION mutate nothing; every delivered CHAT/REACTION goes to a member
socket of the sender's current room and carries the capped payload
(never to any non-member); every member with an open socket receives
the CHAT — the sender included, since the broadcast has no exclusion —
while the REACTION reaches every member except the sender, and no
REACTION delivery ever targets the sender. -/
theorem c6_chat_reaction (env : Env) (st : V1.St) (w : ConnId) (m emj : Str)
    (now : Nat) (info : ClientInfo) (room : V1.Room)
    (hinfo : mget st.clientRooms w = some info)
    (hroom : mget st.rooms info.roomCode = some room) :
    ((V1.handleChat env st w m now).1 = st) ∧
    ((V1.handleReaction env st w emj).1 = st) ∧
    (∀ d ∈ (V1.handleChat env st w m now).2, V1.memberWs room d.1 = true ∧
      d.2 = V1.Out.chat info.userId info.name (m.take 500) now) ∧
    (∀ d ∈ (V1.handleReaction env st w emj).2, V1.memberWs room d.1 = true ∧
      d.2 = V1.Out.reaction info.userId info.name (emj.take 4)) ∧
    (∀ x, V1.memberWs room x = true → env x = true →
      (x, V1.Out.chat info.userId info.name (m.take 500) now) ∈
        (V1.handleChat env st w m now).2) ∧
    (∀ x, V1.memberWs room x = true → env x = true → x ≠ w →
      (x, V1.Out.reaction info.userId info.name (emj.take 4)) ∈
        (V1.handleReaction env st w emj).2) ∧
    (∀ d ∈ (V1.handleReaction env st w emj).2, d.1 ≠ w) := by
  have hredc : (V1.handleChat env st w m now).2 =
      V1.broadcast env st.rooms info.roomCode
        (V1.Out.chat info.userId info.name (m.take 500) now) none := by
    simp only [V1.handleChat, hinfo]
  have hredr : (V1.handleReaction env st w emj).2 =
      V1.broadcast env st.rooms info.roomCode
        (V1.Out.reaction info.userId info.name (emj.take 4)) (some w) := by
    simp only [V1.handleReaction, hinfo]
  refine ⟨?_, ?_, ?_, ?_, ?_, ?_, ?_⟩
  · simp only [V1.handleChat, hinfo]
  · simp only [V1.handleReaction, hinfo]
  · intro d hd
    rw [hredc] at hd
    exact ⟨broadcast_mem_v1 env st.rooms info.roomCode _ none room hroom d hd,
      broadcast_snd_v1 env st.rooms info.roomCode _ none d hd⟩
  · intro d hd
    rw [hredr] at hd
    exact ⟨broadcast_mem_v1 env st.rooms info.roomCode _ (some w) room hroom d hd,
      broadcast_snd_v1 env st.rooms info.roomCode _ (some w) d hd⟩
  · intro x hx hopen
    rw [hredc]
    exact broadcast_complete_v1 env st.rooms info.roomCode _ none room x hroom hx hopen
      (by simp)
  · intro x hx hopen hxw
    rw [hredr]
    exact broadcast_complete_v1 env st.rooms info.roomCode _ (some w) room x hroom hx hopen
      (by simpa using hxw)
  · intro d hd
    rw [hredr] at hd
    exact broadcast_excl_v1 env st.rooms info.roomCode _ w d hd

/-- Witness for `c6_chat_reaction`: socket 2 (listener `Bo`) chats and
reacts in the concrete two-listener room. -/
theorem c6_chat_reaction_witness :
    ((V1.handleChat envAll sampleSt 2 "hey".data 9).1 = sampleSt) ∧
    ((V1.handleReaction envAll sampleSt 2 "x".data).1 = sampleSt) ∧
    (∀ d ∈ (V1.handleChat envAll sampleSt 2 "hey".data 9).2,
      V1.memberWs sampleRoom d.1 = true ∧
      d.2 = V1.Out.chat "u2".data "Bo".data ("hey".data.take 500) 9) ∧
    (∀ d ∈ (V1.handleReaction envAll sampleSt 2 "x".data).2,
      V1.memberWs sampleRoom d.1 = true ∧
      d.2 = V1.Out.reaction "u2".data "Bo".data ("x".data.take 4)) ∧
    (∀ x, V1.memberWs sampleRoom x = true → envAll x = true →
      (x, V1.Out.chat "u2".data "Bo".data ("hey".data.take 500) 9) ∈
        (V1.handleChat envAll sampleSt 2 "hey".data 9).2) ∧
    (∀ x, V1.memberWs sampleRoom x = true → envAll x = true → x ≠ 2 →
      (x, V1.Out.reaction "u2".data "Bo".data ("x".data.take 4)) ∈
        (V1.handleReaction envAll sampleSt 2 "x".data).2) ∧
    (∀ d ∈ (V1.handleReaction envAll sampleSt 2 "x".data).2, d.1 ≠ 2) :=
  c6_chat_reaction envAll sampleSt 2 "hey".data "x".data 9
    ⟨"AAAAAA".data, "u2".data, "Bo".data, Role.listener⟩ sampleRoom
    (by decide) (by decide)

theorem take_len_le (l : Str) (n : Nat) : (l.take n).length ≤ n := by
  rw [List.length_take]
  exact Nat.min_le_left _ _

theorem broadcast_snd_v2 (env : Env) (rooms : List (Str × V2.Room)) (code : Str)
    (m : V2.Out) (ex : Option ConnId) :
    ∀ d ∈ V2.broadcast env rooms code m ex, d.2 = m := by
  intro d hd
  cases hroom : mget rooms code with
  | none => simp only [V2.broadcast, hroom] at hd; simp at hd
  | some room =>
      simp only [V2.broadcast, hroom] at hd
      rcases List.mem_append.mp hd with hh | hl
      · cases hhost : room.host with
        | none => simp only [hhost] at hh; simp at hh
        | some h =>
            simp only [hhost] at hh
            by_cases hc : some h.ws ≠ ex ∧ env h.ws
            · rw [if_pos hc] at hh
              simp at hh
              subst hh
              rfl
            · rw [if_neg hc] at hh; simp at hh
      · rcases List.mem_filterMap.mp hl with ⟨e, _, hfe⟩
        by_cases hc : some e.2.ws ≠ ex ∧ env e.2.ws
        · rw [if_pos hc] at hfe
          cases hfe
          rfl
        · rw [if_neg hc] at hfe; cases hfe

/-- **C8** (amended).  The modelled handlers cap untrusted string
fields before storing or relaying them: variant-1 `PLAY_URL` stores and
relays `videoId` at 20 and title at 100; `CHAT` relays the message at
500, `REACTION` the emoji at 4, `SEARCH` the query at 200; variant-1
`CREATE_ROOM` stores the display name at 20 and variant-3 at 30;
variant-2 `TRACK_UPDATE` stores and relays title/artist at 100 and
platform at 30.  (Variant 3's `PLAY_URL`, also cited by the claim,
stores and relays `videoId` and `title` untruncated — see the
counterexample.) -/
theorem c8_length_caps :
    (∀ env st w vid ttl now c r', mget (V1.handlePlayUrl env st w vid ttl
        now).1.rooms c = some r' →
      (∃ r, mget st.rooms c = some r ∧ r'.videoState = r.videoState) ∨
      (∃ v, r'.videoState = some v ∧ v.videoId.length ≤ 20 ∧ v.title.length ≤ 100)) ∧
    (∀ env st w vid ttl now, ∀ d ∈ (V1.handlePlayUrl env st w vid ttl now).2,
      ∃ v, d.2 = V1.Out.playUrl v ∧ v.videoId.length ≤ 20 ∧ v.title.length ≤ 100) ∧
    (∀ env st w m now, ∀ d ∈ (V1.handleChat env st w m now).2,
      ∃ uid nm msg ts, d.2 = V1.Out.chat uid nm msg ts ∧ msg.length ≤ 500) ∧
    (∀ env st w emj, ∀ d ∈ (V1.handleReaction env st w emj).2,
      ∃ uid nm s, d.2 = V1.Out.reaction uid nm s ∧ s.length ≤ 4) ∧
    (∀ env st w q, ∀ d ∈ (V1.handleSearch env st w q).2,
      ∃ qq nm, d.2 = V1.Out.search qq nm ∧ qq.length ≤ 200) ∧
    (∀ env st w uid nm draws now i,
      mget (V1.handleCreateRoom env st w uid nm draws now).1.clientRooms w = some i →
      i.name.length ≤ 20) ∧
    (∀ env st w ttl art plat pl c r', mget (V2.handleTrackUpdate env st w ttl art plat
        pl).1.rooms c = some r' →
      (∃ r, mget st.rooms c = some r ∧ r'.trackInfo = r.trackInfo) ∨
      (∃ t, r'.trackInfo = some t ∧ t.title.length ≤ 100 ∧ t.artist.length ≤ 100 ∧
        t.platform.length ≤ 30)) ∧
    (∀ env st w ttl art plat pl, ∀ d ∈ (V2.handleTrackUpdate env st w ttl art plat pl).2,
      ∃ t, d.2 = V2.Out.trackUpdate t ∧ t.title.length ≤ 100 ∧ t.artist.length ≤ 100 ∧
        t.platform.length ≤ 30) ∧
    (∀ env st w uid nm draws i,
      mget (V3.handleCreateRoom env st w uid nm draws).1.clientRooms w = some i →
      i.name.length ≤ 30) := by
  refine ⟨?_, ?_, ?_, ?_, ?_, ?_, ?_, ?_, ?_⟩
  · intro env st w vid ttl now c r' hr'
    cases hinfo : mget st.clientRooms w with
    | none =>
        simp only [V1.handlePlayUrl, hinfo] at hr'
        exact Or.inl ⟨r', hr', rfl⟩
    | some info =>
        by_cases hrole : info.role = Role.host
        · cases hroom : mget st.rooms info.roomCode with
          | none =>
              simp [V1.handlePlayUrl, hinfo, hrole, hroom] at hr'
              exact Or.inl ⟨r', hr', rfl⟩
          | some room =>
              simp only [V1.handlePlayUrl, hinfo, hrole, hroom, if_pos] at hr'
              by_cases hc : c = info.roomCode
              · subst hc
                rw [mget_mset_self] at hr'
                injection hr' with hr'
                subst hr'
                exact Or.inr ⟨_, rfl, take_len_le _ _, take_len_le _ _⟩
              · rw [mget_mset_ne _ _ _ _ (fun hh => hc hh.symm)] at hr'
                exact Or.inl ⟨r', hr', rfl⟩
        · simp only [V1.handlePlayUrl, hinfo, if_neg hrole] at hr'
          exact Or.inl ⟨r', hr', rfl⟩
  · intro env st w vid ttl now d hd
    cases hinfo : mget st.clientRooms w with
    | none => simp [V1.handlePlayUrl, hinfo] at hd
    | some info =>
        by_cases hrole : info.role = Role.host
        · cases hroom : mget st.rooms info.roomCode with
          | none => simp [V1.handlePlayUrl, hinfo, hrole, hroom] at hd
          | some room =>
              simp only [V1.handlePlayUrl, hinfo, hrole, hroom, if_pos] at hd
              have := broadcast_snd_v1 _ _ _ _ _ d hd
              exact ⟨_, this, take_len_le _ _, take_len_le _ _⟩
        · simp only [V1.handlePlayUrl, hinfo, if_neg hrole] at hd
          simp at hd
  · intro env st w m now d hd
    cases hinfo : mget st.clientRooms w with
    | none => simp [V1.handleChat, hinfo] at hd
    | some info =>
        simp only [V1.handleChat, hinfo] at hd
        have := broadcast_snd_v1 _ _ _ _ _ d hd
        exact ⟨_, _, _, _, this, take_len_le _ _⟩
  · intro env st w emj d hd
    cases hinfo : mget st.clientRooms w with
    | none => simp [V1.handleReaction, hinfo] at hd
    | some info =>
        simp only [V1.handleReaction, hinfo] at hd
        have := broadcast_snd_v1 _ _ _ _ _ d hd
        exact ⟨_, _, _, this, take_len_le _ _⟩
  · intro env st w q d hd
    unfold V1.handleSearch at hd
    split at hd
    · simp at hd
    next info hinfo =>
      split at hd
      · simp at hd
      next room hroom =>
        split at hd
        next h hhost =>
          unfold V1.sendTo at hd
          split at hd
          · simp at hd
            subst hd
            exact ⟨_, _, rfl, take_len_le _ _⟩
          · simp at hd
        · simp at hd
  · intro env st w uid nm draws now i hi
    simp only [V1.handleCreateRoom] at hi
    rw [mget_mset_self] at hi
    injection hi with hi
    subst hi
    exact take_len_le _ _
  · intro env st w ttl art plat pl c r' hr'
    cases hinfo : mget st.clientRooms w with
    | none =>
        simp only [V2.handleTrackUpdate, hinfo] at hr'
        exact Or.inl ⟨r', hr', rfl⟩
    | some info =>
        by_cases hrole : info.role = Role.host
        · cases hroom : mget st.rooms info.roomCode with
          | none =>
              simp [V2.handleTrackUpdate, hinfo, hrole, hroom] at hr'
              exact Or.inl ⟨r', hr', rfl⟩
          | some room =>
              simp only [V2.handleTrackUpdate, hinfo, hrole, hroom, if_pos] at hr'
              by_cases hc : c = info.roomCode
              · subst hc
                rw [mget_mset_self] at hr'
                injection hr' with hr'
                subst hr'
                exact Or.inr ⟨_, rfl, take_len_le _ _, take_len_le _ _, take_len_le _ _⟩
              · rw [mget_mset_ne _ _ _ _ (fun hh => hc hh.symm)] at hr'
                exact Or.inl ⟨r', hr', rfl⟩
        · simp only [V2.handleTrackUpdate, hinfo, if_neg hrole] at hr'
          exact Or.inl ⟨r', hr', rfl⟩
  · intro env st w ttl art plat pl d hd
    cases hinfo : mget st.clientRooms w with
    | none => simp [V2.handleTrackUpdate, hinfo] at hd
    | some info =>
        by_cases hrole : info.role = Role.host
        · cases hroom : mget st.rooms info.roomCode with
          | none => simp [V2.handleTrackUpdate, hinfo, hrole, hroom] at hd
          | some room =>
              simp only [V2.handleTrackUpdate, hinfo, hrole, hroom, if_pos] at hd
              have := broadcast_snd_v2 _ _ _ _ _ d hd
              exact ⟨_, this, take_len_le _ _, take_len_le _ _, take_len_le _ _⟩
        · simp only [V2.handleTrackUpdate, hinfo, if_neg hrole] at hd
          simp at hd
  · intro env st w uid nm draws i hi
    simp only [V3.handleCreateRoom] at hi
    rw [mget_mset_self] at hi
    injection hi with hi
    subst hi
    exact take_len_le _ _

/-- Witness for `c8_length_caps`: a 25-character display name is
stored capped at 20 by the variant-1 `CREATE_ROOM` handler. -/
theorem c8_length_caps_witness :
    (ClientInfo.mk (generateRoomCode [0, 0, 0, 0, 0, 0]) "u9".data
      ((orElse (List.replicate 25 'n') "Host".data).take 20) Role.host).name.length ≤ 20 :=
  c8_length_caps.2.2.2.2.2.1 envAll sampleSt 9 "u9".data (List.replicate 25 'n')
    [0, 0, 0, 0, 0, 0] 7
    (ClientInfo.mk (generateRoomCode [0, 0, 0, 0, 0, 0]) "u9".data
      ((orElse (List.replicate 25 'n') "Host".data).take 20) Role.host)
    (by decide)

def c8StV3 : V3.St :=
  ⟨[("AAAAAA".data,
     V3.Room.mk "AAAAAA".data 1 "h1".data "Al".data
       [("u2".data, ⟨2, "u2".data, "Bo".data⟩)] none false)],
   [(1, ⟨"AAAAAA".data, "h1".data, "Al".data, Role.host⟩)]⟩

/-- **C8 counterexample.**  The variant-3 `PLAY_URL` handler (cited by
the claim) stores `msg.title` with no truncation and relays it raw: a
101-character title is stored at length 101 in the room's `videoState`
and delivered at length 101 to the listener, violating the 100-character
track/video-title bound. -/
theorem c8_cex :
    (((mget (V3.handlePlayUrl envAll c8StV3 1 "vid01".data (List.replicate 101 'a')
        5).1.rooms "AAAAAA".data).bind (fun r => r.videoState)).map
          (fun v => v.title.length) = some 101) ∧
    ((V3.handlePlayUrl envAll c8StV3 1 "vid01".data (List.replicate 101 'a') 5).2 =
      [(2, V3.Out.playUrl "vid01".data (List.replicate 101 'a'))]) := by
  decide

end JamSync
